import Mathlib

/-!
Internship API: record handlers, shared pool, resume upload, keyword recommender.

A shallow embedding of `internship-api/index.js` and `internship-api/db/dbConfig.js`.

* A request body is the parsed JSON object; reading a field that is absent gives
  `undefined`, as destructuring does. The create handlers take `req.body` as the body
  parsers may leave it, an object or `undefined`; the update handlers and the recommender
  are given on a request whose body was parsed into an object.
* The SQL store, the blob store and the clock are collaborators: each handler takes
  their answers as an environment and returns its response together with the ordered
  list of calls it made to them.
* `getPool` is a transition system over the module variable `poolPromise`.
-/

namespace InternshipApi

/-! ## JavaScript values -/

/-- A JavaScript number: NaN, an infinity, or `± mantissa * 2 ^ exponent`. -/
inductive JsNum where
  | nan
  | inf (negative : Bool)
  | fin (negative : Bool) (mantissa : Nat) (exponent : Int)
  deriving DecidableEq, Repr

/-- A value read from a request: `undefined` for a missing property, else a JSON value.
Arrays and objects are kept by reference only. -/
inductive JsVal where
  | undefined
  | null
  | bool (b : Bool)
  | num (n : JsNum)
  | str (s : String)
  | object (ref : Nat)
  deriving DecidableEq, Repr

/-- JavaScript truthiness (`if (v)`, `!v`). -/
def JsVal.truthy : JsVal → Bool
  | .undefined => false
  | .null => false
  | .bool b => b
  | .num .nan => false
  | .num (.inf _) => true
  | .num (.fin _ m _) => m != 0
  | .str s => s != ""
  | .object _ => true

/-- The value of `a || b`. -/
def JsVal.orElse (a b : JsVal) : JsVal := if a.truthy then a else b

/-- A parsed request body: property name to value, `undefined` when absent. -/
abbrev Body := String → JsVal

/-- The object `{}`: every property reads as `undefined`. -/
def emptyObject : Body := fun _ => .undefined

/-! ## The SQL store as seen from the handlers -/

/-- The `sql.*` parameter types the handlers use. -/
inductive SqlType where
  | Int
  | VarChar
  | NVarChar
  | Date
  deriving DecidableEq, Repr

/-- One `request.input(name, type, value)`. -/
structure Param where
  name : String
  type : SqlType
  value : JsVal
  deriving DecidableEq, Repr

/-- A statement handed to `request.query`, with the inputs bound on that request in
binding order. -/
structure Query where
  text : String
  inputs : List Param
  deriving DecidableEq, Repr

/-- A row of a record set. -/
abbrev Row := List (String × JsVal)

/-- What `request.query` resolves to. -/
structure QueryResult where
  rowsAffected : List Nat
  recordset : List Row
  deriving DecidableEq, Repr

/-- The data layer as a handler meets it: the outcome of `await getPool()` and the
outcome of running a statement (`err.message` on failure). -/
structure Store where
  pool : Except String Unit
  run : Query → Except String QueryResult

/-- A call a handler makes to the data layer. -/
inductive Effect where
  | getPool
  | query (q : Query)
  deriving DecidableEq, Repr

/-- A response payload. -/
inductive ResBody where
  | text (s : String)
  | error (msg : String)
  | message (msg : String)
  | record (r : Row)
  | records (rs : List Row)
  | recommendations (items : List String)
  | url (u : String)
  | uncaught
  deriving DecidableEq, Repr

/-- An HTTP response: status and payload. -/
structure Response where
  status : Nat
  body : ResBody
  deriving DecidableEq, Repr

/-- What a handler did: its response and its calls to the data layer, in order. -/
structure Outcome where
  response : Response
  effects : List Effect
  deriving DecidableEq, Repr

/-- The `updates` array and the request being built by an update handler. -/
structure Builder where
  updates : List String
  inputs : List Param
  deriving DecidableEq, Repr

/-- The body of one `if (...) { updates.push(clause); request.input(...) }` line. -/
def Builder.push (b : Builder) (clause : String) (p : Param) : Builder :=
  ⟨b.updates ++ [clause], b.inputs ++ [p]⟩

/-- The test `result.rowsAffected[0] === 0`. -/
def QueryResult.noRows (r : QueryResult) : Bool := r.rowsAffected.head? == some 0

/-! ## Student routes -/

/-- Handler of `GET /api/students/:id`. -/
def getStudent (Number : String → JsNum) (env : Store) (id : String) : Outcome :=
  match env.pool with
  | .error msg => ⟨⟨500, .text msg⟩, [.getPool]⟩
  | .ok _ =>
    let q : Query := ⟨"SELECT * FROM Students WHERE StudentID = @StudentID",
      [⟨"StudentID", .Int, .num (Number id)⟩]⟩
    match env.run q with
    | .error msg => ⟨⟨500, .text msg⟩, [.getPool, .query q]⟩
    | .ok result =>
      match result.recordset with
      | [] => ⟨⟨404, .text "Student not found"⟩, [.getPool, .query q]⟩
      | r :: _ => ⟨⟨200, .record r⟩, [.getPool, .query q]⟩

/-- Handler of `POST /api/students`; `reqBody` is `req.body`, `none` for `undefined`.
Line 66 destructures `req.body || {}`, so a missing body reads as the empty object. -/
def createStudent (env : Store) (reqBody : Option Body) : Outcome :=
  let body : Body := reqBody.getD emptyObject
  let RollNumber := body "RollNumber"
  let FirstName := body "FirstName"
  let LastName := body "LastName"
  let Email := body "Email"
  let ResumeUrl := body "ResumeUrl"
  if !RollNumber.truthy || !FirstName.truthy || !LastName.truthy || !Email.truthy then
    ⟨⟨400, .text "Missing required fields"⟩, []⟩
  else
    match env.pool with
    | .error msg => ⟨⟨500, .text msg⟩, [.getPool]⟩
    | .ok _ =>
      let inputs : List Param :=
        [⟨"RollNumber", .VarChar, RollNumber⟩, ⟨"FirstName", .NVarChar, FirstName⟩,
         ⟨"LastName", .NVarChar, LastName⟩, ⟨"Email", .NVarChar, Email⟩]
      let inputs :=
        if ResumeUrl != .undefined then inputs ++ [⟨"ResumeUrl", .NVarChar, ResumeUrl⟩]
        else inputs
      let query :=
        if ResumeUrl.truthy then
          "INSERT INTO Students (RollNumber, FirstName, LastName, Email, ResumeUrl) VALUES (@RollNumber, @FirstName, @LastName, @Email, @ResumeUrl)"
        else
          "INSERT INTO Students (RollNumber, FirstName, LastName, Email) VALUES (@RollNumber, @FirstName, @LastName, @Email)"
      let q : Query := ⟨query, inputs⟩
      match env.run q with
      | .error msg => ⟨⟨500, .text msg⟩, [.getPool, .query q]⟩
      | .ok _ => ⟨⟨201, .text "Student added"⟩, [.getPool, .query q]⟩

/-- Lines 100-107 of `PUT /api/students/:id`: the `updates` array and the request inputs
once every field has been looked at. -/
def studentUpdate (Number : String → JsNum) (id : String) (body : Body) : Builder :=
  let RollNumber := body "RollNumber"
  let FirstName := body "FirstName"
  let LastName := body "LastName"
  let Email := body "Email"
  let ResumeUrl := body "ResumeUrl"
  let b : Builder := ⟨[], [⟨"StudentID", .Int, .num (Number id)⟩]⟩
  let b := if RollNumber != .undefined then
    b.push "RollNumber=@RollNumber" ⟨"RollNumber", .VarChar, RollNumber⟩ else b
  let b := if FirstName != .undefined then
    b.push "FirstName=@FirstName" ⟨"FirstName", .NVarChar, FirstName⟩ else b
  let b := if LastName != .undefined then
    b.push "LastName=@LastName" ⟨"LastName", .NVarChar, LastName⟩ else b
  let b := if Email != .undefined then
    b.push "Email=@Email" ⟨"Email", .NVarChar, Email⟩ else b
  let b := if ResumeUrl != .undefined then
    b.push "ResumeUrl=@ResumeUrl" ⟨"ResumeUrl", .NVarChar, ResumeUrl⟩ else b
  b

/-- Handler of `PUT /api/students/:id`. -/
def putStudent (Number : String → JsNum) (env : Store) (id : String) (body : Body) : Outcome :=
  let RollNumber := body "RollNumber"
  let FirstName := body "FirstName"
  let LastName := body "LastName"
  let Email := body "Email"
  let ResumeUrl := body "ResumeUrl"
  if [RollNumber, FirstName, LastName, Email, ResumeUrl].all (fun v => v == .undefined) then
    ⟨⟨400, .text "No fields to update"⟩, []⟩
  else
    match env.pool with
    | .error msg => ⟨⟨500, .text msg⟩, [.getPool]⟩
    | .ok _ =>
      let b := studentUpdate Number id body
      let q : Query :=
        ⟨"UPDATE Students SET " ++ String.intercalate ", " b.updates
          ++ " WHERE StudentID=@StudentID", b.inputs⟩
      match env.run q with
      | .error msg => ⟨⟨500, .text msg⟩, [.getPool, .query q]⟩
      | .ok result =>
        if result.noRows then ⟨⟨404, .text "Student not found"⟩, [.getPool, .query q]⟩
        else ⟨⟨200, .text "Student updated"⟩, [.getPool, .query q]⟩

/-- Handler of `DELETE /api/students/:id`. -/
def deleteStudent (Number : String → JsNum) (env : Store) (id : String) : Outcome :=
  match env.pool with
  | .error msg => ⟨⟨500, .text msg⟩, [.getPool]⟩
  | .ok _ =>
    let q : Query := ⟨"DELETE FROM Students WHERE StudentID=@StudentID",
      [⟨"StudentID", .Int, .num (Number id)⟩]⟩
    match env.run q with
    | .error msg => ⟨⟨500, .text msg⟩, [.getPool, .query q]⟩
    | .ok result =>
      if result.noRows then ⟨⟨404, .text "Student not found"⟩, [.getPool, .query q]⟩
      else ⟨⟨200, .text "Student deleted"⟩, [.getPool, .query q]⟩

/-! ## Internship routes -/

/-- Handler of `POST /api/internships`; `reqBody` is `req.body`, `none` for `undefined`.
Line 177 destructures `req.body` itself, before the `try`: on `undefined` a TypeError
leaves the handler, nothing of its body runs, and the framework answers 500. -/
def createInternship (env : Store) (reqBody : Option Body) : Outcome :=
  match reqBody with
  | none => ⟨⟨500, .uncaught⟩, []⟩
  | some body =>
    let studentId := body "studentId"
    let company := body "company"
    let role := body "role"
    let startDate := body "startDate"
    let endDate := body "endDate"
    if !studentId.truthy || !company.truthy || !role.truthy || !startDate.truthy
        || !endDate.truthy then
      ⟨⟨400, .error "Missing required fields"⟩, []⟩
    else
      match env.pool with
      | .error msg => ⟨⟨500, .error msg⟩, [.getPool]⟩
      | .ok _ =>
        let q : Query :=
          ⟨"INSERT INTO Internships (StudentID, Company, Role, StartDate, EndDate) VALUES (@StudentID, @Company, @Role, @StartDate, @EndDate)",
           [⟨"StudentID", .Int, studentId⟩, ⟨"Company", .NVarChar, company⟩,
            ⟨"Role", .NVarChar, role⟩, ⟨"StartDate", .Date, startDate⟩,
            ⟨"EndDate", .Date, endDate⟩]⟩
        match env.run q with
        | .error msg => ⟨⟨500, .error msg⟩, [.getPool, .query q]⟩
        | .ok _ => ⟨⟨200, .message "Internship added successfully"⟩, [.getPool, .query q]⟩

/-- Lines 220-226 of `PUT /api/internships/:id`: the `updates` array and the request
inputs once every field has been looked at. -/
def internshipUpdate (Number : String → JsNum) (id : String) (body : Body) : Builder :=
  let StudentID := body "StudentID"
  let Company := body "Company"
  let Role := body "Role"
  let StartDate := body "StartDate"
  let EndDate := body "EndDate"
  let b : Builder := ⟨[], [⟨"InternshipID", .Int, .num (Number id)⟩]⟩
  let b := if StudentID.truthy then
    b.push "StudentID=@StudentID" ⟨"StudentID", .Int, StudentID⟩ else b
  let b := if Company.truthy then
    b.push "Company=@Company" ⟨"Company", .NVarChar, Company⟩ else b
  let b := if Role.truthy then
    b.push "Role=@Role" ⟨"Role", .NVarChar, Role⟩ else b
  let b := if StartDate.truthy then
    b.push "StartDate=@StartDate" ⟨"StartDate", .Date, StartDate⟩ else b
  let b := if EndDate.truthy then
    b.push "EndDate=@EndDate" ⟨"EndDate", .Date, EndDate⟩ else b
  b

/-- Handler of `PUT /api/internships/:id`. -/
def putInternship (Number : String → JsNum) (env : Store) (id : String) (body : Body) : Outcome :=
  let StudentID := body "StudentID"
  let Company := body "Company"
  let Role := body "Role"
  let StartDate := body "StartDate"
  let EndDate := body "EndDate"
  if [StudentID, Company, Role, StartDate, EndDate].all (fun v => v == .undefined) then
    ⟨⟨400, .error "No fields to update"⟩, []⟩
  else
    match env.pool with
    | .error msg => ⟨⟨500, .error msg⟩, [.getPool]⟩
    | .ok _ =>
      let b := internshipUpdate Number id body
      let q : Query :=
        ⟨"UPDATE Internships SET " ++ String.intercalate ", " b.updates
          ++ " WHERE InternshipID=@InternshipID", b.inputs⟩
      match env.run q with
      | .error msg => ⟨⟨500, .error msg⟩, [.getPool, .query q]⟩
      | .ok result =>
        if result.noRows then ⟨⟨404, .error "Internship not found"⟩, [.getPool, .query q]⟩
        else ⟨⟨200, .message "Internship updated successfully"⟩, [.getPool, .query q]⟩

/-- Handler of `DELETE /api/internships/:id`. -/
def deleteInternship (Number : String → JsNum) (env : Store) (id : String) : Outcome :=
  match env.pool with
  | .error msg => ⟨⟨500, .error msg⟩, [.getPool]⟩
  | .ok _ =>
    let q : Query := ⟨"DELETE FROM Internships WHERE InternshipID=@InternshipID",
      [⟨"InternshipID", .Int, .num (Number id)⟩]⟩
    match env.run q with
    | .error msg => ⟨⟨500, .error msg⟩, [.getPool, .query q]⟩
    | .ok result =>
      if result.noRows then ⟨⟨404, .error "Internship not found"⟩, [.getPool, .query q]⟩
      else ⟨⟨200, .message "Internship deleted successfully"⟩, [.getPool, .query q]⟩

/-! ## Placement routes -/

/-- Handler of `POST /api/placements`; `reqBody` is `req.body`, `none` for `undefined`.
Line 255 destructures `req.body` itself, before the `try`: on `undefined` a TypeError
leaves the handler, nothing of its body runs, and the framework answers 500. -/
def createPlacement (env : Store) (reqBody : Option Body) : Outcome :=
  match reqBody with
  | none => ⟨⟨500, .uncaught⟩, []⟩
  | some body =>
    let studentId := body "studentId"
    let company := body "company"
    let role := body "role"
    let pkg := body "package"
    let offerDate := body "offerDate"
    if !studentId.truthy || !company.truthy || !pkg.truthy || !offerDate.truthy then
      ⟨⟨400, .error "Missing required fields"⟩, []⟩
    else
      match env.pool with
      | .error msg => ⟨⟨500, .error msg⟩, [.getPool]⟩
      | .ok _ =>
        let q : Query :=
          ⟨"INSERT INTO Placements (StudentID, Company, Role, Package, PlacementDate) VALUES (@StudentID, @Company, @Role, @Package, @PlacementDate)",
           [⟨"StudentID", .Int, studentId⟩, ⟨"Company", .NVarChar, company⟩,
            ⟨"Role", .NVarChar, role.orElse (.str "")⟩, ⟨"Package", .NVarChar, pkg⟩,
            ⟨"PlacementDate", .Date, offerDate⟩]⟩
        match env.run q with
        | .error msg => ⟨⟨500, .error msg⟩, [.getPool, .query q]⟩
        | .ok _ => ⟨⟨200, .message "Placement added successfully"⟩, [.getPool, .query q]⟩

/-- Lines 298-304 of `PUT /api/placements/:id`: the `updates` array and the request
inputs once every field has been looked at. -/
def placementUpdate (Number : String → JsNum) (id : String) (body : Body) : Builder :=
  let StudentID := body "StudentID"
  let Company := body "Company"
  let Role := body "Role"
  let Package := body "Package"
  let PlacementDate := body "PlacementDate"
  let b : Builder := ⟨[], [⟨"PlacementID", .Int, .num (Number id)⟩]⟩
  let b := if StudentID.truthy then
    b.push "StudentID=@StudentID" ⟨"StudentID", .Int, StudentID⟩ else b
  let b := if Company.truthy then
    b.push "Company=@Company" ⟨"Company", .NVarChar, Company⟩ else b
  let b := if Role.truthy then
    b.push "Role=@Role" ⟨"Role", .NVarChar, Role⟩ else b
  let b := if Package.truthy then
    b.push "Package=@Package" ⟨"Package", .NVarChar, Package⟩ else b
  let b := if PlacementDate.truthy then
    b.push "PlacementDate=@PlacementDate" ⟨"PlacementDate", .Date, PlacementDate⟩ else b
  b

/-- Handler of `PUT /api/placements/:id`. -/
def putPlacement (Number : String → JsNum) (env : Store) (id : String) (body : Body) : Outcome :=
  let StudentID := body "StudentID"
  let Company := body "Company"
  let Role := body "Role"
  let Package := body "Package"
  let PlacementDate := body "PlacementDate"
  if [StudentID, Company, Role, Package, PlacementDate].all (fun v => v == .undefined) then
    ⟨⟨400, .error "No fields to update"⟩, []⟩
  else
    match env.pool with
    | .error msg => ⟨⟨500, .error msg⟩, [.getPool]⟩
    | .ok _ =>
      let b := placementUpdate Number id body
      let q : Query :=
        ⟨"UPDATE Placements SET " ++ String.intercalate ", " b.updates
          ++ " WHERE PlacementID=@PlacementID", b.inputs⟩
      match env.run q with
      | .error msg => ⟨⟨500, .error msg⟩, [.getPool, .query q]⟩
      | .ok result =>
        if result.noRows then ⟨⟨404, .error "Placement not found"⟩, [.getPool, .query q]⟩
        else ⟨⟨200, .message "Placement updated successfully"⟩, [.getPool, .query q]⟩

/-- Handler of `DELETE /api/placements/:id`. -/
def deletePlacement (Number : String → JsNum) (env : Store) (id : String) : Outcome :=
  match env.pool with
  | .error msg => ⟨⟨500, .error msg⟩, [.getPool]⟩
  | .ok _ =>
    let q : Query := ⟨"DELETE FROM Placements WHERE PlacementID=@PlacementID",
      [⟨"PlacementID", .Int, .num (Number id)⟩]⟩
    match env.run q with
    | .error msg => ⟨⟨500, .error msg⟩, [.getPool, .query q]⟩
    | .ok result =>
      if result.noRows then ⟨⟨404, .error "Placement not found"⟩, [.getPool, .query q]⟩
      else ⟨⟨200, .message "Placement deleted successfully"⟩, [.getPool, .query q]⟩

/-! ## Resume upload -/

/-- The file multer leaves on the request (`req.file`). -/
structure UploadedFile where
  originalname : String
  buffer : List Nat
  deriving DecidableEq, Repr

/-- The options object given to `generateBlobSASQueryParameters`; `expiresOn` in
milliseconds since the epoch, `permissions` the text given to `BlobSASPermissions.parse`. -/
structure SasOptions where
  containerName : String
  blobName : String
  expiresOn : Nat
  permissions : String
  deriving DecidableEq, Repr

/-- A call the upload handler makes to the blob SDK. -/
inductive BlobCall where
  | fromConnectionString (cs : String)
  | createIfNotExists (container : String)
  | uploadData (container blob : String) (data : List Nat)
  | generateSas (options : SasOptions)
  deriving DecidableEq, Repr

/-- The process environment, the clock and the blob SDK as the upload handler meets them.
`dateNow` is the reading of `Date.now()` on line 147, `sasClock` the reading of
`new Date().valueOf()` on line 156; failures carry `err.message`. -/
structure UploadEnv where
  connectionString : Option String
  fromConnectionString : String → Except String Unit
  createIfNotExists : String → Except String Unit
  dateNow : Nat
  missingFileMessage : String
  uploadData : String → String → List Nat → Except String Unit
  sasClock : Nat
  blobUrl : String → String → String
  sign : SasOptions → Except String String

/-- What the upload handler did. -/
structure UploadOutcome where
  response : Response
  calls : List BlobCall
  deriving DecidableEq, Repr

/-- Handler of `POST /api/upload`. -/
def upload (env : UploadEnv) (file : Option UploadedFile) : UploadOutcome :=
  match env.connectionString with
  | none => ⟨⟨500, .text "Azure Storage connection string not configured"⟩, []⟩
  | some connectionString =>
    if connectionString == "" then
      ⟨⟨500, .text "Azure Storage connection string not configured"⟩, []⟩
    else
      let c1 := [BlobCall.fromConnectionString connectionString]
      match env.fromConnectionString connectionString with
      | .error msg => ⟨⟨500, .text msg⟩, c1⟩
      | .ok _ =>
        let c2 := c1 ++ [.createIfNotExists "resumes"]
        match env.createIfNotExists "resumes" with
        | .error msg => ⟨⟨500, .text msg⟩, c2⟩
        | .ok _ =>
          match file with
          | none => ⟨⟨500, .text env.missingFileMessage⟩, c2⟩
          | some f =>
            let blobName := toString env.dateNow ++ "-" ++ f.originalname
            let c3 := c2 ++ [.uploadData "resumes" blobName f.buffer]
            match env.uploadData "resumes" blobName f.buffer with
            | .error msg => ⟨⟨500, .text msg⟩, c3⟩
            | .ok _ =>
              let options : SasOptions :=
                ⟨"resumes", blobName, env.sasClock + 3600 * 1000, "r"⟩
              let c4 := c3 ++ [.generateSas options]
              match env.sign options with
              | .error msg => ⟨⟨500, .text msg⟩, c4⟩
              | .ok sasToken =>
                ⟨⟨200, .url (env.blobUrl "resumes" blobName ++ "?" ++ sasToken)⟩, c4⟩

/-! ## Keyword recommender -/

/-- An entry of the mock list. -/
structure Internship where
  company : String
  role : String
  deriving DecidableEq, Repr

/-- The module constant `internships`. -/
def internships : List Internship :=
  [⟨"Google", "ML Intern"⟩, ⟨"Microsoft", "Cloud Intern"⟩, ⟨"Amazon", "Web Dev Intern"⟩,
   ⟨"Facebook", "Data Science Intern"⟩, ⟨"Tesla", "AI Intern"⟩]

/-- The pieces of `s.split(sep)` for a one-character separator. -/
def split (sep : Char) : List Char → List (List Char)
  | [] => [[]]
  | c :: cs =>
    if c = sep then [] :: split sep cs
    else
      match split sep cs with
      | [] => [[c]]
      | piece :: pieces => (c :: piece) :: pieces

/-- The characters `String.prototype.trim` removes: white space and line terminators. -/
def isTrimmed (c : Char) : Bool :=
  c.toNat ∈ [0x09, 0x0A, 0x0B, 0x0C, 0x0D, 0x20, 0xA0, 0x1680, 0x2028, 0x2029, 0x202F,
    0x205F, 0x3000, 0xFEFF] || (0x2000 ≤ c.toNat && c.toNat ≤ 0x200A)

/-- The result of `s.trim()`. -/
def trim (s : List Char) : List Char :=
  ((s.dropWhile isTrimmed).reverse.dropWhile isTrimmed).reverse

/-- The test `hay.includes(needle)`. -/
def includes (hay needle : List Char) : Bool :=
  hay.tails.any fun t => needle.isPrefixOf t

/-- The array `skillList` for a skills string. -/
def skillList (toLowerCase : String → String) (skills : String) : List (List Char) :=
  (split ',' (toLowerCase skills).toList).map trim

/-- Handler of `POST /api/recommendations`; `toLowerCase` is the runtime's
`String.prototype.toLowerCase`. -/
def recommend (toLowerCase : String → String) (body : Body) : Response :=
  let skills := body "skills"
  if !skills.truthy then ⟨400, .error "Skills are required"⟩
  else
    match skills with
    | .str s =>
      let skillList := skillList toLowerCase s
      let recommendations :=
        (internships.filter fun i =>
          skillList.any fun skill => includes (toLowerCase i.role).toList skill).map
          fun i => i.company ++ " - " ++ i.role
      ⟨200, .recommendations
        (if recommendations.length != 0 then recommendations else ["No match found"])⟩
    | _ => ⟨500, .uncaught⟩

/-- Lower-casing of the letters A-Z, every other character kept. -/
def asciiLower (s : String) : String := String.mk (s.toList.map Char.toLower)

/-! ## The shared pool (`db/dbConfig.js`) -/

/-- The state of a promise returned by `getPool`. -/
inductive PromiseState where
  | pending
  | fulfilled (pool : Nat)
  | rejected (err : String)
  deriving DecidableEq, Repr

/-- The module state: `poolPromise` (`none` for `undefined`, else the memoized promise,
named by its index) and every promise `getPool` has built so far, one per
`sql.connect(config)` call, in order. -/
structure PoolModule where
  poolPromise : Option Nat
  promises : List PromiseState
  deriving DecidableEq, Repr

/-- The module state at load time. -/
def PoolModule.init : PoolModule := ⟨none, []⟩

/-- The function `getPool`: the promise returned and the module state afterwards. -/
def getPool (m : PoolModule) : Nat × PoolModule :=
  match m.poolPromise with
  | none => (m.promises.length, ⟨some m.promises.length, m.promises ++ [.pending]⟩)
  | some p => (p, m)

/-- The `.then` callback of promise `k` runs: `sql.connect` resolved with `pool`. -/
def connectResolved (k pool : Nat) (m : PoolModule) : PoolModule :=
  if m.promises[k]? = some .pending then ⟨m.poolPromise, m.promises.set k (.fulfilled pool)⟩
  else m

/-- The `.catch` callback of promise `k` runs: `sql.connect` rejected with `err`. -/
def connectRejected (k : Nat) (err : String) (m : PoolModule) : PoolModule :=
  if m.promises[k]? = some .pending then ⟨none, m.promises.set k (.rejected err)⟩
  else m

/-- What can happen to the module: a call of `getPool`, or the settlement of a connect. -/
inductive PoolEvent where
  | call
  | resolved (k pool : Nat)
  | rejected (k : Nat) (err : String)
  deriving DecidableEq, Repr

/-- One event applied to the module state. -/
def PoolModule.step (m : PoolModule) : PoolEvent → PoolModule
  | .call => (getPool m).2
  | .resolved k pool => connectResolved k pool m
  | .rejected k err => connectRejected k err m

/-- The module state after a sequence of events. -/
def PoolModule.run (m : PoolModule) (events : List PoolEvent) : PoolModule :=
  events.foldl PoolModule.step m

/-- The number of connects still outstanding. -/
def PoolModule.outstanding (m : PoolModule) : Nat :=
  m.promises.count .pending

/-- The number of `sql.connect` calls made so far. -/
def PoolModule.connects (m : PoolModule) : Nat := m.promises.length

/-! ## Field tables used to state the update contracts -/

/-- The mutable columns of a student with their parameter types, in handler order. -/
def studentFields : List (String × SqlType) :=
  [("RollNumber", .VarChar), ("FirstName", .NVarChar), ("LastName", .NVarChar),
   ("Email", .NVarChar), ("ResumeUrl", .NVarChar)]

/-- The mutable columns of an internship with their parameter types, in handler order. -/
def internshipFields : List (String × SqlType) :=
  [("StudentID", .Int), ("Company", .NVarChar), ("Role", .NVarChar), ("StartDate", .Date),
   ("EndDate", .Date)]

/-- The mutable columns of a placement with their parameter types, in handler order. -/
def placementFields : List (String × SqlType) :=
  [("StudentID", .Int), ("Company", .NVarChar), ("Role", .NVarChar), ("Package", .NVarChar),
   ("PlacementDate", .Date)]

/-- The clause `F=@F`. -/
def setClause (f : String) : String := f ++ "=@" ++ f

/-- The fields of `fields` that `body` carries with a value other than `undefined`. -/
def definedFields (fields : List (String × SqlType)) (body : Body) : List (String × SqlType) :=
  fields.filter fun f => body f.1 != .undefined

/-- One update line with the `!== undefined` test, for field `f`. -/
def pushDefined (body : Body) (b : Builder) (f : String × SqlType) : Builder :=
  if body f.1 != .undefined then b.push (setClause f.1) ⟨f.1, f.2, body f.1⟩ else b

/-- The UPDATE statement of the update contract over `fields`: the clauses `F=@F` joined
by ", " between `head` and `tail`, and as inputs the key followed by each field with the
value the body gives it. -/
def updateOver (head tail : String) (key : Param) (fields : List (String × SqlType))
    (body : Body) : Query :=
  ⟨head ++ String.intercalate ", " (fields.map fun f => setClause f.1) ++ tail,
   key :: fields.map fun f => ⟨f.1, f.2, body f.1⟩⟩

/-- The affected-row contract of an update or delete outcome against the store `env`:
a statement that ran and reported zero rows gives 404, one that reported a non-zero
count gives 200, and 200 is only ever given for a statement that ran and did not report
zero rows. -/
def ReportsRows (env : Store) (o : Outcome) : Prop :=
  (∀ q r, Effect.query q ∈ o.effects → env.run q = .ok r →
      r.rowsAffected.head? = some 0 → o.response.status = 404) ∧
  (∀ q r n, Effect.query q ∈ o.effects → env.run q = .ok r →
      r.rowsAffected.head? = some n → n ≠ 0 → o.response.status = 200) ∧
  (o.response.status = 200 →
      ∃ q r, Effect.query q ∈ o.effects ∧ env.run q = .ok r ∧ r.rowsAffected.head? ≠ some 0)

/-- A body holding exactly the listed properties. -/
def bodyOf (props : List (String × JsVal)) : Body :=
  fun k => ((props.find? fun p => p.1 == k).map Prod.snd).getD .undefined

/-- A store whose pool is ready and in which every statement touches `n` rows. -/
def readyStore (n : Nat) : Store := ⟨.ok (), fun _ => .ok ⟨[n], []⟩⟩

/-- The number 5. -/
def five : JsNum := .fin false 5 0

/-- The number 0. -/
def zero : JsNum := .fin false 0 0

/-- A body with FirstName "Ada" and Email null, nothing else. -/
def adaBody : Body := bodyOf [("FirstName", .str "Ada"), ("Email", .null)]

/-- A blob SDK in which every call succeeds, with the clock at 1700000000000 ms for the
blob name and at 1700000000250 ms when the grant is made. -/
def workingBlobs : UploadEnv where
  connectionString := some "UseDevelopmentStorage=true"
  fromConnectionString := fun _ => .ok ()
  createIfNotExists := fun _ => .ok ()
  dateNow := 1700000000000
  missingFileMessage := "Cannot read properties of undefined"
  uploadData := fun _ _ _ => .ok ()
  sasClock := 1700000000250
  blobUrl := fun container blob => "https://acct.blob.core.windows.net/" ++ container ++ "/" ++ blob
  sign := fun o => .ok ("se=" ++ toString o.expiresOn ++ "&sp=" ++ o.permissions)

/-- The entries of the fixed list that qualify for a skills string: those whose
lower-cased role has one of the skills as a contiguous substring. -/
def qualifying (toLowerCase : String → String) (skills : String) : List Internship :=
  internships.filter fun i =>
    decide (∃ skill ∈ skillList toLowerCase skills, skill <:+: (toLowerCase i.role).toList)

/-- Promise `k` is the promise of a connect attempt that is pending or has succeeded. -/
def PoolModule.Live (m : PoolModule) (k : Nat) : Prop :=
  m.promises[k]? = some .pending ∨ ∃ pool, m.promises[k]? = some (.fulfilled pool)

/-- The memo names exactly the attempts that are pending or have succeeded. -/
def PoolModule.Consistent (m : PoolModule) : Prop :=
  ∀ k, m.Live k ↔ m.poolPromise = some k

/-- The module states that calls of `getPool` and connect settlements lead to from the
state at load time. -/
def Reachable (m : PoolModule) : Prop :=
  ∃ events, m = PoolModule.init.run events

/-- Two callers ask for the pool, the connect succeeds with pool 7, a third caller asks. -/
def afterSuccess : PoolModule :=
  PoolModule.init.run [.call, .call, .resolved 0 7, .call]

/-- Two callers ask for the pool and the connect is still pending. -/
def whilePending : PoolModule :=
  PoolModule.init.run [.call, .call]

/-- The fields of `fields` that `body` carries with a truthy value. -/
def truthyFields (fields : List (String × SqlType)) (body : Body) : List (String × SqlType) :=
  fields.filter fun f => (body f.1).truthy

/-- One update line with the truthiness test, for field `f`. -/
def pushTruthy (body : Body) (b : Builder) (f : String × SqlType) : Builder :=
  if (body f.1).truthy then b.push (setClause f.1) ⟨f.1, f.2, body f.1⟩ else b

/-- A store whose pool is ready and which refuses every statement, as the driver does for
an integer parameter that holds no number. -/
def refusingStore : Store :=
  ⟨.ok (), fun _ => .error "Validation failed for parameter. Invalid number."⟩

/-- An internship to create whose studentId is the text "abc". -/
def abcInternship : Body :=
  bodyOf [("studentId", .str "abc"), ("company", .str "Acme"), ("role", .str "Dev"),
    ("startDate", .str "2024-01-01"), ("endDate", .str "2024-03-01")]

/-- The outcome of a handler that binds nothing but the path identifier: it is never a
400, every statement it issues has the single input `key`, integer-typed, holding the
number `n`, and with a ready pool it does issue a statement. -/
def BindsOnlyId (env : Store) (key : String) (n : JsNum) (o : Outcome) : Prop :=
  o.response.status ≠ 400 ∧
  (∀ q, Effect.query q ∈ o.effects → q.inputs = [⟨key, .Int, .num n⟩]) ∧
  (∀ u, env.pool = .ok u → ∃ q, Effect.query q ∈ o.effects)

/-- The outcome of an update handler as to the path identifier: every statement it issues
has as first input `key`, integer-typed, holding the number `n`. -/
def BindsIdFirst (key : String) (n : JsNum) (o : Outcome) : Prop :=
  ∀ q, Effect.query q ∈ o.effects → q.inputs.head? = some ⟨key, .Int, .num n⟩

/-! ## Theorems -/

/-! ### Partial updates -/

theorem foldl_pushDefined (body : Body) (fields : List (String × SqlType)) (b : Builder) :
    fields.foldl (pushDefined body) b =
      ⟨b.updates ++ (definedFields fields body).map (fun f => setClause f.1),
       b.inputs ++ (definedFields fields body).map (fun f => ⟨f.1, f.2, body f.1⟩)⟩ := by
  induction fields generalizing b with
  | nil => simp [definedFields]
  | cons f fs ih =>
    rw [List.foldl_cons, ih]
    by_cases h : body f.1 = .undefined
    · simp [pushDefined, definedFields, h]
    · simp [pushDefined, definedFields, h, Builder.push]

theorem studentUpdate_eq_foldl (Number : String → JsNum) (id : String) (body : Body) :
    studentUpdate Number id body =
      studentFields.foldl (pushDefined body) ⟨[], [⟨"StudentID", .Int, .num (Number id)⟩]⟩ := by
  have e1 : setClause "RollNumber" = "RollNumber=@RollNumber" := by decide
  have e2 : setClause "FirstName" = "FirstName=@FirstName" := by decide
  have e3 : setClause "LastName" = "LastName=@LastName" := by decide
  have e4 : setClause "Email" = "Email=@Email" := by decide
  have e5 : setClause "ResumeUrl" = "ResumeUrl=@ResumeUrl" := by decide
  simp only [studentUpdate, studentFields, List.foldl_cons, List.foldl_nil, pushDefined,
    e1, e2, e3, e4, e5]

theorem studentUpdate_spec (Number : String → JsNum) (id : String) (body : Body) :
    studentUpdate Number id body =
      ⟨(definedFields studentFields body).map (fun f => setClause f.1),
       ⟨"StudentID", .Int, .num (Number id)⟩ ::
         (definedFields studentFields body).map (fun f => ⟨f.1, f.2, body f.1⟩)⟩ := by
  rw [studentUpdate_eq_foldl, foldl_pushDefined]
  simp

theorem student_guard_false (body : Body) (h : ∃ f ∈ studentFields, body f.1 ≠ .undefined) :
    [body "RollNumber", body "FirstName", body "LastName", body "Email",
      body "ResumeUrl"].all (fun v => v == .undefined) = false := by
  obtain ⟨f, hf, hne⟩ := h
  simp only [studentFields, List.mem_cons, List.mem_singleton, List.not_mem_nil, or_false] at hf
  rw [Bool.eq_false_iff]
  intro hall
  simp only [List.all_cons, List.all_nil, Bool.and_true, Bool.and_eq_true, beq_iff_eq] at hall
  rcases hf with rfl | rfl | rfl | rfl | rfl
  · exact hne hall.1
  · exact hne hall.2.1
  · exact hne hall.2.2.1
  · exact hne hall.2.2.2.1
  · exact hne hall.2.2.2.2

theorem mem_definedFields (fields : List (String × SqlType)) (body : Body)
    (f : String × SqlType) :
    f ∈ definedFields fields body ↔ f ∈ fields ∧ body f.1 ≠ .undefined := by
  simp [definedFields, List.mem_filter]

theorem putStudent_effects (Number : String → JsNum) (env : Store) (id : String)
    (body : Body) (h : ∃ f ∈ studentFields, body f.1 ≠ .undefined) :
    (putStudent Number env id body).effects =
      .getPool :: (match env.pool with
        | .ok _ => [.query (updateOver "UPDATE Students SET " " WHERE StudentID=@StudentID"
            ⟨"StudentID", .Int, .num (Number id)⟩ (definedFields studentFields body) body)]
        | .error _ => []) := by
  have hg := student_guard_false body h
  unfold putStudent
  simp only [hg, Bool.false_eq_true, if_false, studentUpdate_spec, updateOver]
  cases env.pool with
  | error msg => rfl
  | ok u =>
    simp only
    split
    · rfl
    · split <;> rfl

/-- C1: for `PUT /api/students/:id` and every body in which some field of RollNumber,
FirstName, LastName, Email, ResumeUrl is not `undefined`, the handler acquires the pool
and, when the pool is ready, issues exactly one statement: its SET list is the clauses
`F=@F` of the defined fields in that fixed order (a non-empty list), its inputs are
StudentID followed by those same fields with the values of the body, and no input is
`undefined`. -/
theorem putStudent_statement (Number : String → JsNum) (env : Store) (id : String)
    (body : Body) (h : ∃ f ∈ studentFields, body f.1 ≠ .undefined) :
    definedFields studentFields body ≠ [] ∧
    (∀ f, f ∈ definedFields studentFields body ↔ f ∈ studentFields ∧ body f.1 ≠ .undefined) ∧
    (∀ p ∈ (updateOver "UPDATE Students SET " " WHERE StudentID=@StudentID"
        ⟨"StudentID", .Int, .num (Number id)⟩ (definedFields studentFields body) body).inputs,
      p.value ≠ .undefined) ∧
    (putStudent Number env id body).effects =
      .getPool :: (match env.pool with
        | .ok _ => [.query (updateOver "UPDATE Students SET " " WHERE StudentID=@StudentID"
            ⟨"StudentID", .Int, .num (Number id)⟩ (definedFields studentFields body) body)]
        | .error _ => []) := by
  have hmem := mem_definedFields studentFields body
  refine ⟨?_, hmem, ?_, putStudent_effects Number env id body h⟩
  · obtain ⟨f, hf, hne⟩ := h
    exact List.ne_nil_of_mem ((hmem f).2 ⟨hf, hne⟩)
  · intro p hp
    simp only [updateOver, List.mem_cons, List.mem_map] at hp
    rcases hp with rfl | ⟨f, hf, rfl⟩
    · simp
    · exact ((hmem f).1 hf).2

/-- C1 at a concrete request: `PUT /api/students/5` with FirstName "Ada" and Email null. -/
theorem putStudent_statement_witness :
    (∃ f ∈ studentFields, adaBody f.1 ≠ .undefined) ∧
    (putStudent (fun _ => five) (readyStore 1) "5" adaBody).effects =
      [.getPool, .query ⟨"UPDATE Students SET FirstName=@FirstName, Email=@Email WHERE StudentID=@StudentID",
        [⟨"StudentID", .Int, .num five⟩, ⟨"FirstName", .NVarChar, .str "Ada"⟩,
         ⟨"Email", .NVarChar, .null⟩]⟩] :=
  ⟨⟨("FirstName", .NVarChar), by decide, by decide⟩,
   (putStudent_statement (fun _ => five) (readyStore 1) "5" adaBody
      ⟨("FirstName", .NVarChar), by decide, by decide⟩).2.2.2.trans (by decide)⟩

/-- C2, the code at two requests the claim covers. `PUT /api/internships/5` with
StudentID 0 and Company "Acme": both fields are defined, yet the statement sets only
Company and binds no StudentID. `PUT /api/placements/5` with Role "" and Package
"12 LPA": the statement sets only Package. -/
theorem putInternship_drops_defined_field (Number : String → JsNum)
    (run : Query → Except String QueryResult) :
    (putInternship Number ⟨.ok (), run⟩ "5"
        (bodyOf [("StudentID", .num zero), ("Company", .str "Acme")])).effects =
      [.getPool, .query ⟨"UPDATE Internships SET Company=@Company WHERE InternshipID=@InternshipID",
        [⟨"InternshipID", .Int, .num (Number "5")⟩, ⟨"Company", .NVarChar, .str "Acme"⟩]⟩] ∧
    (putPlacement Number ⟨.ok (), run⟩ "5"
        (bodyOf [("Role", .str ""), ("Package", .str "12 LPA")])).effects =
      [.getPool, .query ⟨"UPDATE Placements SET Package=@Package WHERE PlacementID=@PlacementID",
        [⟨"PlacementID", .Int, .num (Number "5")⟩, ⟨"Package", .NVarChar, .str "12 LPA"⟩]⟩] := by
  constructor
  · have hb : internshipUpdate Number "5"
        (bodyOf [("StudentID", .num zero), ("Company", .str "Acme")]) =
        ⟨["Company=@Company"],
         [⟨"InternshipID", .Int, .num (Number "5")⟩, ⟨"Company", .NVarChar, .str "Acme"⟩]⟩ := rfl
    have hg : [bodyOf [("StudentID", .num zero), ("Company", .str "Acme")] "StudentID",
        bodyOf [("StudentID", .num zero), ("Company", .str "Acme")] "Company",
        bodyOf [("StudentID", .num zero), ("Company", .str "Acme")] "Role",
        bodyOf [("StudentID", .num zero), ("Company", .str "Acme")] "StartDate",
        bodyOf [("StudentID", .num zero), ("Company", .str "Acme")] "EndDate"].all
          (fun v => v == .undefined) = false := by decide
    have ht : "UPDATE Internships SET " ++ String.intercalate ", " ["Company=@Company"]
        ++ " WHERE InternshipID=@InternshipID" =
        "UPDATE Internships SET Company=@Company WHERE InternshipID=@InternshipID" := by decide
    unfold putInternship
    simp only [hg, hb, ht, Bool.false_eq_true, if_false]
    split
    · rfl
    · split <;> rfl
  · have hb : placementUpdate Number "5"
        (bodyOf [("Role", .str ""), ("Package", .str "12 LPA")]) =
        ⟨["Package=@Package"],
         [⟨"PlacementID", .Int, .num (Number "5")⟩, ⟨"Package", .NVarChar, .str "12 LPA"⟩]⟩ := rfl
    have hg : [bodyOf [("Role", .str ""), ("Package", .str "12 LPA")] "StudentID",
        bodyOf [("Role", .str ""), ("Package", .str "12 LPA")] "Company",
        bodyOf [("Role", .str ""), ("Package", .str "12 LPA")] "Role",
        bodyOf [("Role", .str ""), ("Package", .str "12 LPA")] "Package",
        bodyOf [("Role", .str ""), ("Package", .str "12 LPA")] "PlacementDate"].all
          (fun v => v == .undefined) = false := by decide
    have ht : "UPDATE Placements SET " ++ String.intercalate ", " ["Package=@Package"]
        ++ " WHERE PlacementID=@PlacementID" =
        "UPDATE Placements SET Package=@Package WHERE PlacementID=@PlacementID" := by decide
    unfold putPlacement
    simp only [hg, hb, ht, Bool.false_eq_true, if_false]
    split
    · rfl
    · split <;> rfl

/-- C3, the code at `PUT /api/internships/5` with body Company "": Company is defined, so
the guard lets the request through; no field is truthy, so the SET list is empty; the
pool is acquired and the statement with the empty SET list is sent, and the answer is not
400. -/
theorem putInternship_sends_empty_set (Number : String → JsNum)
    (run : Query → Except String QueryResult) :
    internshipUpdate Number "5" (bodyOf [("Company", .str "")]) =
      ⟨[], [⟨"InternshipID", .Int, .num (Number "5")⟩]⟩ ∧
    (putInternship Number ⟨.ok (), run⟩ "5" (bodyOf [("Company", .str "")])).effects =
      [.getPool, .query ⟨"UPDATE Internships SET  WHERE InternshipID=@InternshipID",
        [⟨"InternshipID", .Int, .num (Number "5")⟩]⟩] ∧
    (putInternship Number ⟨.ok (), run⟩ "5"
        (bodyOf [("Company", .str "")])).response.status ≠ 400 := by
  have hb : internshipUpdate Number "5" (bodyOf [("Company", .str "")]) =
      ⟨[], [⟨"InternshipID", .Int, .num (Number "5")⟩]⟩ := rfl
  have hg : [bodyOf [("Company", .str "")] "StudentID", bodyOf [("Company", .str "")] "Company",
      bodyOf [("Company", .str "")] "Role", bodyOf [("Company", .str "")] "StartDate",
      bodyOf [("Company", .str "")] "EndDate"].all (fun v => v == .undefined) = false := by
    decide
  have ht : "UPDATE Internships SET " ++ String.intercalate ", " []
      ++ " WHERE InternshipID=@InternshipID" =
      "UPDATE Internships SET  WHERE InternshipID=@InternshipID" := by decide
  refine ⟨hb, ?_, ?_⟩
  · unfold putInternship
    simp only [hg, hb, ht, Bool.false_eq_true, if_false]
    split
    · rfl
    · split <;> rfl
  · unfold putInternship
    simp only [hg, hb, ht, Bool.false_eq_true, if_false]
    split
    · simp
    · split <;> simp

/-! ### Affected rows -/

theorem reportsRows_tail (env : Store) (q : Query)
    (fail : String → ResBody) (notFound done : ResBody) :
    ReportsRows env
      (match env.run q with
        | .error msg => ⟨⟨500, fail msg⟩, [.getPool, .query q]⟩
        | .ok result =>
          if result.noRows then ⟨⟨404, notFound⟩, [.getPool, .query q]⟩
          else ⟨⟨200, done⟩, [.getPool, .query q]⟩) := by
  cases hrun : env.run q with
  | error msg =>
    refine ⟨?_, ?_, ?_⟩
    · intro q1 r hq hr
      simp only [List.mem_cons, List.mem_singleton, Effect.query.injEq, List.not_mem_nil,
        or_false, false_or, reduceCtorEq] at hq
      subst hq
      rw [hrun] at hr
      cases hr
    · intro q1 r n hq hr
      simp only [List.mem_cons, List.mem_singleton, Effect.query.injEq, List.not_mem_nil,
        or_false, false_or, reduceCtorEq] at hq
      subst hq
      rw [hrun] at hr
      cases hr
    · intro h
      simp at h
  | ok result =>
    by_cases hz : result.rowsAffected.head? = some 0
    · have hn : result.noRows = true := by simp [QueryResult.noRows, hz]
      simp only [hn, if_true]
      refine ⟨fun _ _ _ _ _ => rfl, ?_, ?_⟩
      · intro q1 r n hq hr hh hne
        simp only [List.mem_cons, List.mem_singleton, Effect.query.injEq, List.not_mem_nil,
          or_false, false_or, reduceCtorEq] at hq
        subst hq
        rw [hrun] at hr
        cases hr
        rw [hz] at hh
        cases hh
        exact absurd rfl hne
      · intro h
        simp at h
    · have hn : result.noRows = false := by simp [QueryResult.noRows, hz]
      simp only [hn, Bool.false_eq_true, if_false]
      refine ⟨?_, fun _ _ _ _ _ _ _ => rfl, fun _ => ⟨q, result, by simp, hrun, hz⟩⟩
      intro q1 r hq hr hh
      simp only [List.mem_cons, List.mem_singleton, Effect.query.injEq, List.not_mem_nil,
        or_false, false_or, reduceCtorEq] at hq
      subst hq
      rw [hrun] at hr
      cases hr
      exact absurd hh hz

theorem reportsRows_silent (env : Store) (status : Nat) (b : ResBody) (fx : List Effect)
    (hs : status ≠ 200) (hfx : ∀ q, Effect.query q ∉ fx) :
    ReportsRows env ⟨⟨status, b⟩, fx⟩ :=
  ⟨fun q _ hq => absurd hq (hfx q), fun q _ _ hq => absurd hq (hfx q),
   fun h => absurd h hs⟩

/-- C6: each update and each delete handler of students, internships and placements keeps
the affected-row contract: a statement that ran and reported zero rows is answered 404,
one that reported a non-zero count (one or more) is answered 200, and 200 is answered only
after a statement ran and did not report zero rows. -/
theorem update_delete_report_rows (Number : String → JsNum) (env : Store) (id : String)
    (body : Body) :
    ReportsRows env (putStudent Number env id body) ∧
    ReportsRows env (deleteStudent Number env id) ∧
    ReportsRows env (putInternship Number env id body) ∧
    ReportsRows env (deleteInternship Number env id) ∧
    ReportsRows env (putPlacement Number env id body) ∧
    ReportsRows env (deletePlacement Number env id) := by
  refine ⟨?_, ?_, ?_, ?_, ?_, ?_⟩
  · unfold putStudent
    simp only
    split
    · exact reportsRows_silent _ _ _ _ (by decide) (by simp)
    · split
      · exact reportsRows_silent _ _ _ _ (by decide) (by simp)
      · exact reportsRows_tail env _ _ _ _
  · unfold deleteStudent
    split
    · exact reportsRows_silent _ _ _ _ (by decide) (by simp)
    · exact reportsRows_tail env _ _ _ _
  · unfold putInternship
    simp only
    split
    · exact reportsRows_silent _ _ _ _ (by decide) (by simp)
    · split
      · exact reportsRows_silent _ _ _ _ (by decide) (by simp)
      · exact reportsRows_tail env _ _ _ _
  · unfold deleteInternship
    split
    · exact reportsRows_silent _ _ _ _ (by decide) (by simp)
    · exact reportsRows_tail env _ _ _ _
  · unfold putPlacement
    simp only
    split
    · exact reportsRows_silent _ _ _ _ (by decide) (by simp)
    · split
      · exact reportsRows_silent _ _ _ _ (by decide) (by simp)
      · exact reportsRows_tail env _ _ _ _
  · unfold deletePlacement
    split
    · exact reportsRows_silent _ _ _ _ (by decide) (by simp)
    · exact reportsRows_tail env _ _ _ _

/-- The delete handler at a store reporting zero rows, and at one reporting two. -/
theorem deleteInternship_examples :
    (deleteInternship (fun _ => five) (readyStore 0) "5").response =
      ⟨404, .error "Internship not found"⟩ ∧
    (deleteInternship (fun _ => five) (readyStore 2) "5").response =
      ⟨200, .message "Internship deleted successfully"⟩ := by
  decide

/-! ### Mandatory fields on create -/

theorem falsy_of_undefined (v : JsVal) (h : v = .undefined) : v.truthy = false := by
  subst h
  rfl

/-- With a body parsed into an object, a create request in which a mandatory field is
absent is answered 400 with "Missing required fields" and makes no call to the data
layer: the pool is not acquired and no INSERT is issued. Mandatory are RollNumber,
FirstName, LastName, Email for students; studentId, company, role, startDate, endDate for
internships; studentId, company, package, offerDate for placements. -/
theorem create_missing_field (env : Store) (body : Body) :
    ((∃ f ∈ ["RollNumber", "FirstName", "LastName", "Email"], body f = .undefined) →
      createStudent env (some body) = ⟨⟨400, .text "Missing required fields"⟩, []⟩) ∧
    ((∃ f ∈ ["studentId", "company", "role", "startDate", "endDate"], body f = .undefined) →
      createInternship env (some body) = ⟨⟨400, .error "Missing required fields"⟩, []⟩) ∧
    ((∃ f ∈ ["studentId", "company", "package", "offerDate"], body f = .undefined) →
      createPlacement env (some body) = ⟨⟨400, .error "Missing required fields"⟩, []⟩) := by
  refine ⟨?_, ?_, ?_⟩
  · rintro ⟨f, hf, hu⟩
    simp only [List.mem_cons, List.mem_singleton, List.not_mem_nil, or_false] at hf
    unfold createStudent
    rcases hf with rfl | rfl | rfl | rfl <;> simp [falsy_of_undefined _ hu]
  · rintro ⟨f, hf, hu⟩
    simp only [List.mem_cons, List.mem_singleton, List.not_mem_nil, or_false] at hf
    unfold createInternship
    rcases hf with rfl | rfl | rfl | rfl | rfl <;> simp [falsy_of_undefined _ hu]
  · rintro ⟨f, hf, hu⟩
    simp only [List.mem_cons, List.mem_singleton, List.not_mem_nil, or_false] at hf
    unfold createPlacement
    rcases hf with rfl | rfl | rfl | rfl <;> simp [falsy_of_undefined _ hu]

/-- The create handlers at concrete parsed bodies: a student without Email, an internship
without endDate, a placement without offerDate, each against a store that would accept
the INSERT. -/
theorem create_missing_field_examples :
    createStudent (readyStore 1)
        (some (bodyOf [("RollNumber", .str "R1"), ("FirstName", .str "A"),
          ("LastName", .str "B")])) =
      ⟨⟨400, .text "Missing required fields"⟩, []⟩ ∧
    createInternship (readyStore 1)
        (some (bodyOf [("studentId", .num five), ("company", .str "Acme"),
          ("role", .str "Dev"), ("startDate", .str "2024-01-01")])) =
      ⟨⟨400, .error "Missing required fields"⟩, []⟩ ∧
    createPlacement (readyStore 1)
        (some (bodyOf [("studentId", .num five), ("company", .str "Acme"),
          ("package", .str "12 LPA")])) =
      ⟨⟨400, .error "Missing required fields"⟩, []⟩ :=
  ⟨(create_missing_field (readyStore 1) _).1 ⟨"Email", by decide, by decide⟩,
   (create_missing_field (readyStore 1) _).2.1 ⟨"endDate", by decide, by decide⟩,
   (create_missing_field (readyStore 1) _).2.2 ⟨"offerDate", by decide, by decide⟩⟩

/-- C7, the code at a create request that carries no parsed body, so that every mandatory
field is absent. `POST /api/internships` and `POST /api/placements` destructure
`req.body` with no fallback: the TypeError leaves the handler before the guard and the
answer is 500, not 400 "Missing required fields" (still with no call to the data layer).
`POST /api/students`, which destructures `req.body || {}`, answers the same request with
400 "Missing required fields". -/
theorem create_without_body (env : Store) :
    createInternship env none = ⟨⟨500, .uncaught⟩, []⟩ ∧
    createPlacement env none = ⟨⟨500, .uncaught⟩, []⟩ ∧
    createStudent env none = ⟨⟨400, .text "Missing required fields"⟩, []⟩ :=
  ⟨rfl, rfl, rfl⟩

/-- The create handlers do write when every mandatory field is there. -/
theorem create_complete_examples :
    createStudent (readyStore 1)
        (some (bodyOf [("RollNumber", .str "R1"), ("FirstName", .str "A"),
          ("LastName", .str "B"), ("Email", .str "a@b.com")])) =
      ⟨⟨201, .text "Student added"⟩,
       [.getPool, .query ⟨"INSERT INTO Students (RollNumber, FirstName, LastName, Email) VALUES (@RollNumber, @FirstName, @LastName, @Email)",
         [⟨"RollNumber", .VarChar, .str "R1"⟩, ⟨"FirstName", .NVarChar, .str "A"⟩,
          ⟨"LastName", .NVarChar, .str "B"⟩, ⟨"Email", .NVarChar, .str "a@b.com"⟩]⟩]⟩ := by
  decide

/-! ### Resume upload -/

/-- C8: when the connection string is configured and the client, the container creation
and the upload succeed, the handler asks for one access grant, after the upload: for
container "resumes", for the blob name `{Date.now()}-{originalname}` it has just uploaded
under, with permission text "r" only, and with expiry the clock reading taken at the
grant plus 3 600 000 ms. When signing succeeds the answer is 200 with the blob URL, "?"
and the signed query string; a url is answered in no other way. -/
theorem upload_grant (env : UploadEnv) (file : UploadedFile) (cs : String)
    (hcs : env.connectionString = some cs) (hne : cs ≠ "")
    (hclient : env.fromConnectionString cs = .ok ())
    (hcreate : env.createIfNotExists "resumes" = .ok ())
    (hup : env.uploadData "resumes" (toString env.dateNow ++ "-" ++ file.originalname)
      file.buffer = .ok ()) :
    (upload env (some file)).calls =
      [.fromConnectionString cs, .createIfNotExists "resumes",
       .uploadData "resumes" (toString env.dateNow ++ "-" ++ file.originalname) file.buffer,
       .generateSas ⟨"resumes", toString env.dateNow ++ "-" ++ file.originalname,
         env.sasClock + 3600000, "r"⟩] ∧
    (∀ token, env.sign ⟨"resumes", toString env.dateNow ++ "-" ++ file.originalname,
          env.sasClock + 3600000, "r"⟩ = .ok token →
      (upload env (some file)).response =
        ⟨200, .url (env.blobUrl "resumes" (toString env.dateNow ++ "-" ++ file.originalname)
          ++ "?" ++ token)⟩) ∧
    (∀ u, (upload env (some file)).response.body = .url u →
      ∃ token, env.sign ⟨"resumes", toString env.dateNow ++ "-" ++ file.originalname,
          env.sasClock + 3600000, "r"⟩ = .ok token ∧
        u = env.blobUrl "resumes" (toString env.dateNow ++ "-" ++ file.originalname)
          ++ "?" ++ token) := by
  have hne2 : (cs == "") = false := by simpa using hne
  have h36 : env.sasClock + 3600 * 1000 = env.sasClock + 3600000 := by norm_num
  unfold upload
  simp only [hcs, hne2, hclient, hcreate, hup, h36, Bool.false_eq_true, if_false]
  cases hsign : env.sign ⟨"resumes", toString env.dateNow ++ "-" ++ file.originalname,
      env.sasClock + 3600000, "r"⟩ with
  | error msg => simp
  | ok token => simp

/-- C8 at a concrete upload: "resume.pdf" stored at clock 1700000000000, grant made at
clock 1700000000250, hence expiring at 1700003600250. -/
theorem upload_grant_witness :
    (upload workingBlobs (some ⟨"resume.pdf", [37, 80, 68, 70]⟩)).calls =
      [.fromConnectionString "UseDevelopmentStorage=true", .createIfNotExists "resumes",
       .uploadData "resumes" "1700000000000-resume.pdf" [37, 80, 68, 70],
       .generateSas ⟨"resumes", "1700000000000-resume.pdf", 1700003600250, "r"⟩] ∧
    (upload workingBlobs (some ⟨"resume.pdf", [37, 80, 68, 70]⟩)).response =
      ⟨200, .url "https://acct.blob.core.windows.net/resumes/1700000000000-resume.pdf?se=1700003600250&sp=r"⟩ :=
  ⟨(upload_grant workingBlobs ⟨"resume.pdf", [37, 80, 68, 70]⟩ "UseDevelopmentStorage=true"
      rfl (by decide) rfl rfl rfl).1.trans (by decide),
   ((upload_grant workingBlobs ⟨"resume.pdf", [37, 80, 68, 70]⟩ "UseDevelopmentStorage=true"
      rfl (by decide) rfl rfl rfl).2.1 "se=1700003600250&sp=r"
      (congrArg Except.ok (by decide))).trans (by decide)⟩

/-! ### Keyword recommender -/

theorem split_ne_nil (sep : Char) (s : List Char) : split sep s ≠ [] := by
  cases s with
  | nil => simp [split]
  | cons c cs =>
    unfold split
    split
    · simp
    · split <;> simp

theorem intercalate_split (sep : Char) (s : List Char) :
    List.intercalate [sep] (split sep s) = s := by
  induction s with
  | nil => simp [split, List.intercalate]
  | cons c cs ih =>
    unfold split
    cases hsp : split sep cs with
    | nil => exact absurd hsp (split_ne_nil sep cs)
    | cons piece pieces =>
      rw [hsp] at ih
      by_cases hc : c = sep
      · subst hc
        simp only [if_true]
        rw [← ih]
        simp [List.intercalate, List.intersperse]
      · simp only [hc, if_false]
        rw [← ih]
        cases pieces <;> simp [List.intercalate, List.intersperse]

theorem sep_not_mem_split (sep : Char) (s : List Char) :
    ∀ piece ∈ split sep s, sep ∉ piece := by
  induction s with
  | nil => simp [split]
  | cons c cs ih =>
    unfold split
    cases hsp : split sep cs with
    | nil => exact absurd hsp (split_ne_nil sep cs)
    | cons piece pieces =>
      rw [hsp] at ih
      by_cases hc : c = sep
      · subst hc
        simp only [if_true]
        intro p hp
        rcases List.mem_cons.1 hp with rfl | hp
        · simp
        · exact ih p hp
      · simp only [hc, if_false]
        intro p hp
        rcases List.mem_cons.1 hp with rfl | hp
        · intro hmem
          rcases List.mem_cons.1 hmem with h | h
          · exact hc h.symm
          · exact ih piece (List.mem_cons_self _ _) h
        · exact ih p (List.mem_cons_of_mem _ hp)

theorem trim_spec (s : List Char) :
    ∃ pre post, s = pre ++ trim s ++ post ∧ (∀ c ∈ pre, isTrimmed c = true) ∧
      (∀ c ∈ post, isTrimmed c = true) ∧
      (∀ c, (trim s).head? = some c → isTrimmed c = false) ∧
      (∀ c, (trim s).getLast? = some c → isTrimmed c = false) := by
  have hd : s.dropWhile isTrimmed =
      trim s ++ ((s.dropWhile isTrimmed).reverse.takeWhile isTrimmed).reverse := by
    have h := List.takeWhile_append_dropWhile isTrimmed (s.dropWhile isTrimmed).reverse
    have h2 := congrArg List.reverse h
    rw [List.reverse_append, List.reverse_reverse] at h2
    exact h2.symm
  have hlast : ∀ c, (trim s).getLast? = some c → isTrimmed c = false := by
    intro c hc
    have h := List.head?_dropWhile_not isTrimmed (s.dropWhile isTrimmed).reverse
    rw [trim, List.getLast?_reverse] at hc
    rw [hc] at h
    simpa using h
  refine ⟨s.takeWhile isTrimmed,
    ((s.dropWhile isTrimmed).reverse.takeWhile isTrimmed).reverse, ?_, ?_, ?_, ?_, hlast⟩
  · rw [List.append_assoc, ← hd, List.takeWhile_append_dropWhile]
  · intro c hc
    exact List.mem_takeWhile_imp hc
  · intro c hc
    exact List.mem_takeWhile_imp (List.mem_reverse.1 hc)
  · intro c hc
    have h := List.head?_dropWhile_not isTrimmed s
    rw [hd] at h
    cases ht : trim s with
    | nil => rw [ht] at hc; simp at hc
    | cons x xs =>
      rw [ht] at hc h
      simp at hc h
      subst hc
      exact h
theorem includes_iff (hay needle : List Char) :
    includes hay needle = true ↔ needle <:+: hay := by
  simp only [includes, List.any_eq_true, List.mem_tails, List.isPrefixOf_iff_prefix,
    List.infix_iff_prefix_suffix]
  constructor
  · rintro ⟨t, ht, hp⟩
    exact ⟨t, hp, ht⟩
  · rintro ⟨t, hp, ht⟩
    exact ⟨t, ht, hp⟩

theorem filter_includes_eq_qualifying (toLowerCase : String → String) (skills : String) :
    (internships.filter fun i =>
      (skillList toLowerCase skills).any fun skill =>
        includes (toLowerCase i.role).toList skill) = qualifying toLowerCase skills := by
  unfold qualifying
  apply List.filter_congr
  intro i _
  rw [Bool.eq_iff_iff]
  simp only [List.any_eq_true, includes_iff, decide_eq_true_eq]

theorem recommend_of_string (toLowerCase : String → String) (body : Body) (s : String)
    (hs : body "skills" = .str s) (hne : s ≠ "") :
    recommend toLowerCase body =
      ⟨200, .recommendations
        (if qualifying toLowerCase s = [] then ["No match found"]
         else (qualifying toLowerCase s).map fun i => i.company ++ " - " ++ i.role)⟩ := by
  have ht : (JsVal.str s).truthy = true := by simpa [JsVal.truthy] using hne
  unfold recommend
  simp only [hs, ht, Bool.not_true, Bool.false_eq_true, if_false,
    filter_includes_eq_qualifying]
  by_cases hq : qualifying toLowerCase s = []
  · simp [hq]
  · simp [hq]

theorem recommend_congr (f g : String → String) (body : Body) (s : String)
    (hs : body "skills" = .str s) (hskills : f s = g s)
    (hroles : ∀ i ∈ internships, f i.role = g i.role) :
    recommend f body = recommend g body := by
  have hfilter : (internships.filter fun i =>
      (skillList f s).any fun skill => includes (f i.role).toList skill) =
      (internships.filter fun i =>
        (skillList g s).any fun skill => includes (g i.role).toList skill) := by
    apply List.filter_congr
    intro i hi
    rw [hroles i hi]
    simp only [skillList, hskills]
  unfold recommend
  simp only [hs, hfilter]

/-- C9: for every non-empty skills string the recommender answers 200 with, in the order
of the fixed five-entry list, the strings "company - role" of the entries whose
lower-cased role contains as a substring one of the skills (the input lower-cased, split
on "," and each piece trimmed), or with the single string "No match found" when no entry
qualifies; for skills "ml, cloud" the answer is "Google - ML Intern",
"Microsoft - Cloud Intern". `toLowerCase` is the lower-casing of the runtime, of which
only its action on ASCII text is used, and only for the example. -/
theorem recommend_contract (toLowerCase : String → String)
    (hlow : ∀ s : String, (∀ c ∈ s.toList, c.toNat < 128) → toLowerCase s = asciiLower s) :
    (∀ (body : Body) (s : String), body "skills" = .str s → s ≠ "" →
      recommend toLowerCase body =
        ⟨200, .recommendations
          (if qualifying toLowerCase s = [] then ["No match found"]
           else (qualifying toLowerCase s).map fun i => i.company ++ " - " ++ i.role)⟩) ∧
    (∀ body : Body, body "skills" = .str "ml, cloud" →
      recommend toLowerCase body =
        ⟨200, .recommendations ["Google - ML Intern", "Microsoft - Cloud Intern"]⟩) := by
  refine ⟨fun body s hs hne => recommend_of_string toLowerCase body s hs hne, ?_⟩
  intro body hs
  have hroles : ∀ i ∈ internships, toLowerCase i.role = asciiLower i.role := by
    intro i hi
    apply hlow
    revert i
    decide
  rw [recommend_congr toLowerCase asciiLower body "ml, cloud" hs (hlow _ (by decide)) hroles]
  unfold recommend
  simp only [hs]
  decide

/-- C9 with the lower-casing of ASCII letters standing for the runtime: the skills
"ml, cloud" give the two matching entries, the skills "rust" give "No match found". -/
theorem recommend_contract_witness :
    (∀ s : String, (∀ c ∈ s.toList, c.toNat < 128) → asciiLower s = asciiLower s) ∧
    recommend asciiLower (bodyOf [("skills", .str "ml, cloud")]) =
      ⟨200, .recommendations ["Google - ML Intern", "Microsoft - Cloud Intern"]⟩ ∧
    recommend asciiLower (bodyOf [("skills", .str "rust")]) =
      ⟨200, .recommendations ["No match found"]⟩ :=
  ⟨fun _ _ => rfl,
   (recommend_contract asciiLower (fun _ _ => rfl)).2 _ rfl,
   ((recommend_contract asciiLower (fun _ _ => rfl)).1 _ "rust" rfl (by decide)).trans
     (by decide)⟩

/-! ### The shared pool -/

theorem consistent_init : PoolModule.init.Consistent := by
  intro k
  simp [PoolModule.init, PoolModule.Live]

theorem consistent_getPool (m : PoolModule) (h : m.Consistent) : (getPool m).2.Consistent := by
  unfold getPool
  cases hp : m.poolPromise with
  | some p => simpa using h
  | none =>
    intro k
    have hk := h k
    rw [hp] at hk
    simp only [PoolModule.Live, Option.some.injEq]
    rcases Nat.lt_trichotomy k m.promises.length with hlt | heq | hgt
    · have hne : m.promises.length ≠ k := by omega
      rw [List.getElem?_append_left hlt]
      simp only [PoolModule.Live, reduceCtorEq, iff_false] at hk
      simp only [hne, iff_false]
      exact hk
    · subst heq
      simp
    · have hne : m.promises.length ≠ k := by omega
      have hnone : (m.promises ++ [PromiseState.pending])[k]? = none := by
        apply List.getElem?_eq_none
        simp
        omega
      simp [hnone, hne]

theorem consistent_connectResolved (m : PoolModule) (h : m.Consistent) (k pool : Nat) :
    (connectResolved k pool m).Consistent := by
  unfold connectResolved
  split
  · rename_i hpend
    have hmemo : m.poolPromise = some k := (h k).1 (Or.inl hpend)
    have hlt : k < m.promises.length := by
      rcases List.getElem?_eq_some_iff.1 hpend with ⟨hlt, _⟩
      exact hlt
    intro j
    simp only [PoolModule.Live]
    by_cases hj : k = j
    · subst hj
      simp [List.getElem?_set_self hlt, hmemo]
    · rw [List.getElem?_set_ne hj]
      exact h j
  · exact h

theorem consistent_connectRejected (m : PoolModule) (h : m.Consistent) (k : Nat)
    (err : String) : (connectRejected k err m).Consistent := by
  unfold connectRejected
  split
  · rename_i hpend
    have hmemo : m.poolPromise = some k := (h k).1 (Or.inl hpend)
    have hlt : k < m.promises.length := by
      rcases List.getElem?_eq_some_iff.1 hpend with ⟨hlt, _⟩
      exact hlt
    intro j
    simp only [PoolModule.Live]
    by_cases hj : k = j
    · subst hj
      simp [List.getElem?_set_self hlt]
    · rw [List.getElem?_set_ne hj]
      have hjm := h j
      rw [hmemo] at hjm
      simp only [PoolModule.Live, Option.some.injEq, hj, iff_false] at hjm
      simp only [reduceCtorEq, iff_false]
      exact hjm
  · exact h

theorem consistent_step (m : PoolModule) (h : m.Consistent) (e : PoolEvent) :
    (m.step e).Consistent := by
  cases e with
  | call => exact consistent_getPool m h
  | resolved k pool => exact consistent_connectResolved m h k pool
  | rejected k err => exact consistent_connectRejected m h k err

theorem consistent_run (events : List PoolEvent) (m : PoolModule) (h : m.Consistent) :
    (m.run events).Consistent := by
  induction events generalizing m with
  | nil => exact h
  | cons e es ih => exact ih (m.step e) (consistent_step m h e)

theorem consistent_of_reachable (m : PoolModule) (h : Reachable m) : m.Consistent := by
  obtain ⟨events, rfl⟩ := h
  exact consistent_run events _ consistent_init

theorem count_le_one_of_unique (l : List PromiseState) (a : PromiseState)
    (h : ∀ i j : Nat, l[i]? = some a → l[j]? = some a → i = j) : l.count a ≤ 1 := by
  induction l with
  | nil => simp
  | cons x xs ih =>
    have hxs : ∀ i j : Nat, xs[i]? = some a → xs[j]? = some a → i = j := by
      intro i j hi hj
      have := h (i + 1) (j + 1) (by simpa using hi) (by simpa using hj)
      omega
    by_cases hx : x = a
    · subst hx
      have hnot : x ∉ xs := by
        intro hmem
        obtain ⟨n, hn⟩ := List.mem_iff_getElem?.1 hmem
        have := h 0 (n + 1) (by simp) (by simpa using hn)
        omega
      simp [List.count_cons, List.count_eq_zero.2 hnot]
    · have hbeq : (x == a) = false := by simpa using hx
      rw [List.count_cons]
      simp only [hbeq, Bool.false_eq_true, if_false, Nat.add_zero]
      exact ih hxs

theorem connects_step (m : PoolModule) (e : PoolEvent) :
    (m.step e).connects = m.connects ∨
      (e = .call ∧ m.poolPromise = none ∧ (m.step e).connects = m.connects + 1) := by
  cases e with
  | call =>
    cases hp : m.poolPromise with
    | some p => left; simp [PoolModule.step, getPool, hp]
    | none => right; simp [PoolModule.step, getPool, hp, PoolModule.connects]
  | resolved k pool =>
    left
    simp only [PoolModule.step, connectResolved, PoolModule.connects]
    split <;> simp
  | rejected k err =>
    left
    simp only [PoolModule.step, connectRejected, PoolModule.connects]
    split <;> simp

theorem settled_step (m : PoolModule) (e : PoolEvent) (k : Nat) (s : PromiseState)
    (hk : m.promises[k]? = some s) (hs : s ≠ .pending) :
    (m.step e).promises[k]? = some s := by
  have hlt : k < m.promises.length := by
    rcases List.getElem?_eq_some_iff.1 hk with ⟨hlt, _⟩
    exact hlt
  cases e with
  | call =>
    cases hp : m.poolPromise with
    | some p => simpa [PoolModule.step, getPool, hp] using hk
    | none =>
      simp only [PoolModule.step, getPool, hp]
      rw [List.getElem?_append_left hlt]
      exact hk
  | resolved j pool =>
    simp only [PoolModule.step, connectResolved]
    split
    · rename_i hpend
      have hne : j ≠ k := by
        rintro rfl
        rw [hk] at hpend
        exact hs (Option.some.inj hpend)
      simp only [List.getElem?_set_ne hne]
      exact hk
    · exact hk
  | rejected j err =>
    simp only [PoolModule.step, connectRejected]
    split
    · rename_i hpend
      have hne : j ≠ k := by
        rintro rfl
        rw [hk] at hpend
        exact hs (Option.some.inj hpend)
      simp only [List.getElem?_set_ne hne]
      exact hk
    · exact hk

theorem settled_run (events : List PoolEvent) (m : PoolModule) (k : Nat) (s : PromiseState)
    (hk : m.promises[k]? = some s) (hs : s ≠ .pending) :
    (m.run events).promises[k]? = some s := by
  induction events generalizing m with
  | nil => exact hk
  | cons e es ih => exact ih (m.step e) (settled_step m e k s hk hs)

theorem getPool_of_live (m : PoolModule) (h : m.Consistent) (k : Nat) (hk : m.Live k) :
    getPool m = (k, m) := by
  have hmemo := (h k).1 hk
  simp [getPool, hmemo]

theorem connects_run_of_fulfilled (events : List PoolEvent) (m : PoolModule)
    (h : m.Consistent) (k pool : Nat) (hk : m.promises[k]? = some (.fulfilled pool)) :
    (m.run events).connects = m.connects := by
  induction events generalizing m with
  | nil => rfl
  | cons e es ih =>
    have hstep : (m.step e).connects = m.connects := by
      rcases connects_step m e with h1 | ⟨_, hnone, _⟩
      · exact h1
      · have := (h k).1 (Or.inr ⟨pool, hk⟩)
        rw [hnone] at this
        cases this
    have := ih (m.step e) (consistent_step m h e)
      (settled_step m e k _ hk (by simp))
    simpa [PoolModule.run, hstep] using this

/-- C4: in every module state that calls of `getPool` and connect settlements can lead
to, at most one connect is outstanding; an event starts a connect only if it is a call
that finds `poolPromise` empty, and then it starts exactly one; a call made while an
attempt is pending or after one has succeeded returns that memoized promise and leaves
the module as it is; and once an attempt has succeeded, whatever happens later, no
connect is started and every call returns the promise of that attempt. -/
theorem getPool_single_flight (m : PoolModule) (hm : Reachable m) :
    m.outstanding ≤ 1 ∧
    (∀ e, (m.step e).connects ≠ m.connects →
      e = .call ∧ m.poolPromise = none ∧ (m.step e).connects = m.connects + 1) ∧
    (∀ k, m.Live k → m.poolPromise = some k ∧ getPool m = (k, m)) ∧
    (∀ k pool, m.promises[k]? = some (.fulfilled pool) →
      ∀ later, (m.run later).connects = m.connects ∧
        getPool (m.run later) = (k, m.run later)) := by
  have hc := consistent_of_reachable m hm
  refine ⟨?_, ?_, ?_, ?_⟩
  · apply count_le_one_of_unique
    intro i j hi hj
    have h1 := (hc i).1 (Or.inl hi)
    have h2 := (hc j).1 (Or.inl hj)
    rw [h1] at h2
    exact Option.some.inj h2
  · intro e hne
    rcases connects_step m e with h1 | h2
    · exact absurd h1 hne
    · exact h2
  · intro k hk
    exact ⟨(hc k).1 hk, getPool_of_live m hc k hk⟩
  · intro k pool hk later
    refine ⟨connects_run_of_fulfilled later m hc k pool hk, ?_⟩
    apply getPool_of_live _ (consistent_run later m hc)
    exact Or.inr ⟨pool, settled_run later m k _ hk (by simp)⟩

/-- C4 after two calls, a successful connect and a third call: one connect was made, the
memo is promise 0, a further call returns promise 0 and nothing that follows (here a
stray failure report and two more calls) starts a connect. -/
theorem getPool_single_flight_witness :
    Reachable afterSuccess ∧
    afterSuccess = ⟨some 0, [.fulfilled 7]⟩ ∧
    afterSuccess.outstanding ≤ 1 ∧
    getPool afterSuccess = (0, afterSuccess) ∧
    (afterSuccess.run [.rejected 0 "late", .call, .call]).connects = 1 :=
  ⟨⟨_, rfl⟩, by decide,
   (getPool_single_flight afterSuccess ⟨_, rfl⟩).1,
   ((getPool_single_flight afterSuccess ⟨_, rfl⟩).2.2.1 0 (Or.inr ⟨7, by decide⟩)).2,
   ((getPool_single_flight afterSuccess ⟨_, rfl⟩).2.2.2 0 7 (by decide)
      [.rejected 0 "late", .call, .call]).1.trans (by decide)⟩

/-- The coalescing seen from the first use: two calls while the connect is pending make
one connect and both return promise 0. -/
theorem getPool_coalesces_example :
    whilePending = ⟨some 0, [.pending]⟩ ∧
    (getPool PoolModule.init).1 = 0 ∧
    (getPool (getPool PoolModule.init).2).1 = 0 ∧
    whilePending.connects = 1 := by
  decide

/-- C5: when the connect of a pending attempt `k` fails with `err`, `poolPromise` is
cleared to `undefined`; promise `k` is rejected with that same `err` and stays so whatever
happens later, so every holder of it observes the original error; and the next call of
`getPool` starts a fresh connect: it returns a new promise, other than `k`, pending and
memoized. -/
theorem getPool_failure_reset (m : PoolModule) (k : Nat) (err : String)
    (hp : m.promises[k]? = some .pending) :
    (connectRejected k err m).poolPromise = none ∧
    (∀ later, ((connectRejected k err m).run later).promises[k]? = some (.rejected err)) ∧
    getPool (connectRejected k err m) =
      (m.promises.length,
        ⟨some m.promises.length, m.promises.set k (.rejected err) ++ [.pending]⟩) ∧
    m.promises.length ≠ k ∧
    (getPool (connectRejected k err m)).2.connects = m.connects + 1 := by
  have hlt : k < m.promises.length := by
    rcases List.getElem?_eq_some_iff.1 hp with ⟨hlt, _⟩
    exact hlt
  have hrej : connectRejected k err m = ⟨none, m.promises.set k (.rejected err)⟩ := by
    simp [connectRejected, hp]
  refine ⟨by rw [hrej], ?_, ?_, by omega, ?_⟩
  · intro later
    apply settled_run later _ k _ _ (by simp)
    rw [hrej]
    exact List.getElem?_set_self hlt
  · rw [hrej]
    simp [getPool]
  · rw [hrej]
    simp [getPool, PoolModule.connects]

/-- C5 on the first attempt: two callers hold promise 0, the connect fails with
"ETIMEOUT"; the memo is cleared, promise 0 is rejected with "ETIMEOUT", and the next call
returns the new promise 1 with a second connect under way. -/
theorem getPool_failure_reset_witness :
    whilePending.promises[0]? = some .pending ∧
    connectRejected 0 "ETIMEOUT" whilePending = ⟨none, [.rejected "ETIMEOUT"]⟩ ∧
    getPool (connectRejected 0 "ETIMEOUT" whilePending) =
      (1, ⟨some 1, [.rejected "ETIMEOUT", .pending]⟩) :=
  ⟨by decide, by decide,
   (getPool_failure_reset whilePending 0 "ETIMEOUT" (by decide)).2.2.1.trans (by decide)⟩

/-! ### What the internship and placement updates build -/

theorem foldl_pushTruthy (body : Body) (fields : List (String × SqlType)) (b : Builder) :
    fields.foldl (pushTruthy body) b =
      ⟨b.updates ++ (truthyFields fields body).map (fun f => setClause f.1),
       b.inputs ++ (truthyFields fields body).map (fun f => ⟨f.1, f.2, body f.1⟩)⟩ := by
  induction fields generalizing b with
  | nil => simp [truthyFields]
  | cons f fs ih =>
    rw [List.foldl_cons, ih]
    by_cases h : (body f.1).truthy = true
    · simp [pushTruthy, truthyFields, h, Builder.push]
    · simp [pushTruthy, truthyFields, h]

theorem internshipUpdate_spec (Number : String → JsNum) (id : String) (body : Body) :
    internshipUpdate Number id body =
      ⟨(truthyFields internshipFields body).map (fun f => setClause f.1),
       ⟨"InternshipID", .Int, .num (Number id)⟩ ::
         (truthyFields internshipFields body).map (fun f => ⟨f.1, f.2, body f.1⟩)⟩ := by
  have e1 : setClause "StudentID" = "StudentID=@StudentID" := by decide
  have e2 : setClause "Company" = "Company=@Company" := by decide
  have e3 : setClause "Role" = "Role=@Role" := by decide
  have e4 : setClause "StartDate" = "StartDate=@StartDate" := by decide
  have e5 : setClause "EndDate" = "EndDate=@EndDate" := by decide
  have hfold : internshipUpdate Number id body =
      internshipFields.foldl (pushTruthy body)
        ⟨[], [⟨"InternshipID", .Int, .num (Number id)⟩]⟩ := by
    simp only [internshipUpdate, internshipFields, List.foldl_cons, List.foldl_nil,
      pushTruthy, e1, e2, e3, e4, e5]
  rw [hfold, foldl_pushTruthy]
  simp

theorem placementUpdate_spec (Number : String → JsNum) (id : String) (body : Body) :
    placementUpdate Number id body =
      ⟨(truthyFields placementFields body).map (fun f => setClause f.1),
       ⟨"PlacementID", .Int, .num (Number id)⟩ ::
         (truthyFields placementFields body).map (fun f => ⟨f.1, f.2, body f.1⟩)⟩ := by
  have e1 : setClause "StudentID" = "StudentID=@StudentID" := by decide
  have e2 : setClause "Company" = "Company=@Company" := by decide
  have e3 : setClause "Role" = "Role=@Role" := by decide
  have e4 : setClause "Package" = "Package=@Package" := by decide
  have e5 : setClause "PlacementDate" = "PlacementDate=@PlacementDate" := by decide
  have hfold : placementUpdate Number id body =
      placementFields.foldl (pushTruthy body)
        ⟨[], [⟨"PlacementID", .Int, .num (Number id)⟩]⟩ := by
    simp only [placementUpdate, placementFields, List.foldl_cons, List.foldl_nil,
      pushTruthy, e1, e2, e3, e4, e5]
  rw [hfold, foldl_pushTruthy]
  simp

/-! ### Identifiers -/

theorem all_undefined_iff (body : Body) (a b c d e : String) :
    [body a, body b, body c, body d, body e].all (fun v => v == .undefined) = true ↔
      ∀ f ∈ [a, b, c, d, e], body f = .undefined := by
  simp

/-- C10 refuted on the code. `POST /api/internships` with studentId "abc" and every other
field present: the text "abc" is bound to the integer-typed StudentID input of the INSERT,
and the answer is the 500 of the refused statement, not a 400. `GET /api/students/abc`,
where `Number` gives NaN: NaN is bound to the integer-typed StudentID input, and again the
answer is 500. -/
theorem identifier_not_validated :
    createInternship refusingStore (some abcInternship) =
      ⟨⟨500, .error "Validation failed for parameter. Invalid number."⟩,
       [.getPool, .query ⟨"INSERT INTO Internships (StudentID, Company, Role, StartDate, EndDate) VALUES (@StudentID, @Company, @Role, @StartDate, @EndDate)",
         [⟨"StudentID", .Int, .str "abc"⟩, ⟨"Company", .NVarChar, .str "Acme"⟩,
          ⟨"Role", .NVarChar, .str "Dev"⟩, ⟨"StartDate", .Date, .str "2024-01-01"⟩,
          ⟨"EndDate", .Date, .str "2024-03-01"⟩]⟩]⟩ ∧
    getStudent (fun _ => .nan) refusingStore "abc" =
      ⟨⟨500, .text "Validation failed for parameter. Invalid number."⟩,
       [.getPool, .query ⟨"SELECT * FROM Students WHERE StudentID = @StudentID",
         [⟨"StudentID", .Int, .num .nan⟩]⟩]⟩ := by
  decide

theorem bindsOnlyId_getStudent (Number : String → JsNum) (env : Store) (id : String) :
    BindsOnlyId env "StudentID" (Number id) (getStudent Number env id) := by
  unfold getStudent BindsOnlyId
  cases hp : env.pool with
  | error msg => simp
  | ok u =>
    simp only
    split
    · simp
    · split <;> simp

theorem bindsOnlyId_deleteStudent (Number : String → JsNum) (env : Store) (id : String) :
    BindsOnlyId env "StudentID" (Number id) (deleteStudent Number env id) := by
  unfold deleteStudent BindsOnlyId
  cases hp : env.pool with
  | error msg => simp
  | ok u =>
    simp only
    split
    · simp
    · split <;> simp

theorem bindsOnlyId_deleteInternship (Number : String → JsNum) (env : Store) (id : String) :
    BindsOnlyId env "InternshipID" (Number id) (deleteInternship Number env id) := by
  unfold deleteInternship BindsOnlyId
  cases hp : env.pool with
  | error msg => simp
  | ok u =>
    simp only
    split
    · simp
    · split <;> simp

theorem bindsOnlyId_deletePlacement (Number : String → JsNum) (env : Store) (id : String) :
    BindsOnlyId env "PlacementID" (Number id) (deletePlacement Number env id) := by
  unfold deletePlacement BindsOnlyId
  cases hp : env.pool with
  | error msg => simp
  | ok u =>
    simp only
    split
    · simp
    · split <;> simp

theorem put_id_students (Number : String → JsNum) (env : Store) (id : String) (body : Body) :
    BindsIdFirst "StudentID" (Number id) (putStudent Number env id body) ∧
    ((putStudent Number env id body).response.status = 400 ↔
      ∀ f ∈ ["RollNumber", "FirstName", "LastName", "Email", "ResumeUrl"],
        body f = .undefined) := by
  rw [← all_undefined_iff]
  unfold putStudent BindsIdFirst
  simp only [studentUpdate_spec]
  split
  · rename_i hg
    simp [hg]
  · rename_i hg
    cases hp : env.pool with
    | error msg => simp [hg]
    | ok u =>
      simp only
      split
      · simp [hg]
      · split <;> simp [hg]

theorem put_id_internships (Number : String → JsNum) (env : Store) (id : String)
    (body : Body) :
    BindsIdFirst "InternshipID" (Number id) (putInternship Number env id body) ∧
    ((putInternship Number env id body).response.status = 400 ↔
      ∀ f ∈ ["StudentID", "Company", "Role", "StartDate", "EndDate"],
        body f = .undefined) ∧
    ((body "StudentID").truthy = true → ∀ q,
      Effect.query q ∈ (putInternship Number env id body).effects →
        ⟨"StudentID", .Int, body "StudentID"⟩ ∈ q.inputs) := by
  have hmem : (body "StudentID").truthy = true →
      (⟨"StudentID", .Int, body "StudentID"⟩ : Param) ∈
        (truthyFields internshipFields body).map (fun f => ⟨f.1, f.2, body f.1⟩) := by
    intro ht
    apply List.mem_map.2
    exact ⟨("StudentID", .Int), by simp [truthyFields, internshipFields, ht], rfl⟩
  rw [← all_undefined_iff]
  unfold putInternship BindsIdFirst
  simp only [internshipUpdate_spec]
  split
  · rename_i hg
    simp [hg]
  · rename_i hg
    cases hp : env.pool with
    | error msg => simp [hg]
    | ok u =>
      simp only
      split
      · refine ⟨by simp, by simp [hg], ?_⟩
        intro ht q hq
        simp only [List.mem_cons, List.mem_singleton, Effect.query.injEq, List.not_mem_nil,
          or_false, false_or, reduceCtorEq] at hq
        subst hq
        exact List.mem_cons_of_mem _ (hmem ht)
      · split
        · refine ⟨by simp, by simp [hg], ?_⟩
          intro ht q hq
          simp only [List.mem_cons, List.mem_singleton, Effect.query.injEq, List.not_mem_nil,
            or_false, false_or, reduceCtorEq] at hq
          subst hq
          exact List.mem_cons_of_mem _ (hmem ht)
        · refine ⟨by simp, by simp [hg], ?_⟩
          intro ht q hq
          simp only [List.mem_cons, List.mem_singleton, Effect.query.injEq, List.not_mem_nil,
            or_false, false_or, reduceCtorEq] at hq
          subst hq
          exact List.mem_cons_of_mem _ (hmem ht)

theorem put_id_placements (Number : String → JsNum) (env : Store) (id : String)
    (body : Body) :
    BindsIdFirst "PlacementID" (Number id) (putPlacement Number env id body) ∧
    ((putPlacement Number env id body).response.status = 400 ↔
      ∀ f ∈ ["StudentID", "Company", "Role", "Package", "PlacementDate"],
        body f = .undefined) ∧
    ((body "StudentID").truthy = true → ∀ q,
      Effect.query q ∈ (putPlacement Number env id body).effects →
        ⟨"StudentID", .Int, body "StudentID"⟩ ∈ q.inputs) := by
  have hmem : (body "StudentID").truthy = true →
      (⟨"StudentID", .Int, body "StudentID"⟩ : Param) ∈
        (truthyFields placementFields body).map (fun f => ⟨f.1, f.2, body f.1⟩) := by
    intro ht
    apply List.mem_map.2
    exact ⟨("StudentID", .Int), by simp [truthyFields, placementFields, ht], rfl⟩
  rw [← all_undefined_iff]
  unfold putPlacement BindsIdFirst
  simp only [placementUpdate_spec]
  split
  · rename_i hg
    simp [hg]
  · rename_i hg
    cases hp : env.pool with
    | error msg => simp [hg]
    | ok u =>
      simp only
      split
      · refine ⟨by simp, by simp [hg], ?_⟩
        intro ht q hq
        simp only [List.mem_cons, List.mem_singleton, Effect.query.injEq, List.not_mem_nil,
          or_false, false_or, reduceCtorEq] at hq
        subst hq
        exact List.mem_cons_of_mem _ (hmem ht)
      · split
        · refine ⟨by simp, by simp [hg], ?_⟩
          intro ht q hq
          simp only [List.mem_cons, List.mem_singleton, Effect.query.injEq, List.not_mem_nil,
            or_false, false_or, reduceCtorEq] at hq
          subst hq
          exact List.mem_cons_of_mem _ (hmem ht)
        · refine ⟨by simp, by simp [hg], ?_⟩
          intro ht q hq
          simp only [List.mem_cons, List.mem_singleton, Effect.query.injEq, List.not_mem_nil,
            or_false, false_or, reduceCtorEq] at hq
          subst hq
          exact List.mem_cons_of_mem _ (hmem ht)

theorem create_id_internship (env : Store) (body : Body) :
    (∀ q, Effect.query q ∈ (createInternship env (some body)).effects →
      ⟨"StudentID", .Int, body "studentId"⟩ ∈ q.inputs) ∧
    ((createInternship env (some body)).response.status = 400 ↔
      ∃ f ∈ ["studentId", "company", "role", "startDate", "endDate"],
        (body f).truthy = false) := by
  unfold createInternship
  simp only
  split
  · rename_i hg
    refine ⟨by simp, ?_⟩
    simp only [Bool.or_eq_true, Bool.not_eq_true_eq_eq_false] at hg
    simp only [List.mem_cons, List.mem_singleton, List.not_mem_nil, or_false, exists_eq_or_imp,
      exists_eq_left, true_iff]
    tauto
  · rename_i hg
    simp only [Bool.or_eq_true, Bool.not_eq_true_eq_eq_false, not_or,
      Bool.not_eq_false] at hg
    have hno : ¬ ∃ f ∈ ["studentId", "company", "role", "startDate", "endDate"],
        (body f).truthy = false := by
      simp only [List.mem_cons, List.mem_singleton, List.not_mem_nil, or_false,
        exists_eq_or_imp, exists_eq_left]
      simp [hg.1.1.1.1, hg.1.1.1.2, hg.1.1.2, hg.1.2, hg.2]
    cases hp : env.pool with
    | error msg =>
      exact ⟨by simp, fun h => absurd h (by simp), fun h => absurd h hno⟩
    | ok u =>
      simp only
      split
      · exact ⟨by simp, fun h => absurd h (by simp), fun h => absurd h hno⟩
      · exact ⟨by simp, fun h => absurd h (by simp), fun h => absurd h hno⟩

theorem create_id_placement (env : Store) (body : Body) :
    (∀ q, Effect.query q ∈ (createPlacement env (some body)).effects →
      ⟨"StudentID", .Int, body "studentId"⟩ ∈ q.inputs) ∧
    ((createPlacement env (some body)).response.status = 400 ↔
      ∃ f ∈ ["studentId", "company", "package", "offerDate"], (body f).truthy = false) := by
  unfold createPlacement
  simp only
  split
  · rename_i hg
    refine ⟨by simp, ?_⟩
    simp only [Bool.or_eq_true, Bool.not_eq_true_eq_eq_false] at hg
    simp only [List.mem_cons, List.mem_singleton, List.not_mem_nil, or_false, exists_eq_or_imp,
      exists_eq_left, true_iff]
    tauto
  · rename_i hg
    simp only [Bool.or_eq_true, Bool.not_eq_true_eq_eq_false, not_or,
      Bool.not_eq_false] at hg
    have hno : ¬ ∃ f ∈ ["studentId", "company", "package", "offerDate"],
        (body f).truthy = false := by
      simp only [List.mem_cons, List.mem_singleton, List.not_mem_nil, or_false,
        exists_eq_or_imp, exists_eq_left]
      simp [hg.1.1.1, hg.1.1.2, hg.1.2, hg.2]
    cases hp : env.pool with
    | error msg =>
      exact ⟨by simp, fun h => absurd h (by simp), fun h => absurd h hno⟩
    | ok u =>
      simp only
      split
      · exact ⟨by simp, fun h => absurd h (by simp), fun h => absurd h hno⟩
      · exact ⟨by simp, fun h => absurd h (by simp), fun h => absurd h hno⟩

/-- C10 as the code has it. The `:id` path parameter of the get, update and delete
handlers goes through `Number` and the result, whatever it is, is bound to the
integer-typed key input; the StudentID body field of the internship and placement create
handlers, and of their update handlers when truthy, is bound to the integer-typed
StudentID input exactly as the body gives it. No identifier leads to a 400: the get and
delete handlers never answer 400, an update answers 400 exactly when all five fields are
`undefined`, a create exactly when a mandatory field is falsy. -/
theorem identifiers_bound_unchecked (Number : String → JsNum) (env : Store) (id : String)
    (body : Body) :
    BindsOnlyId env "StudentID" (Number id) (getStudent Number env id) ∧
    BindsOnlyId env "StudentID" (Number id) (deleteStudent Number env id) ∧
    BindsOnlyId env "InternshipID" (Number id) (deleteInternship Number env id) ∧
    BindsOnlyId env "PlacementID" (Number id) (deletePlacement Number env id) ∧
    (BindsIdFirst "StudentID" (Number id) (putStudent Number env id body) ∧
      ((putStudent Number env id body).response.status = 400 ↔
        ∀ f ∈ ["RollNumber", "FirstName", "LastName", "Email", "ResumeUrl"],
          body f = .undefined)) ∧
    (BindsIdFirst "InternshipID" (Number id) (putInternship Number env id body) ∧
      ((putInternship Number env id body).response.status = 400 ↔
        ∀ f ∈ ["StudentID", "Company", "Role", "StartDate", "EndDate"],
          body f = .undefined) ∧
      ((body "StudentID").truthy = true → ∀ q,
        Effect.query q ∈ (putInternship Number env id body).effects →
          ⟨"StudentID", .Int, body "StudentID"⟩ ∈ q.inputs)) ∧
    (BindsIdFirst "PlacementID" (Number id) (putPlacement Number env id body) ∧
      ((putPlacement Number env id body).response.status = 400 ↔
        ∀ f ∈ ["StudentID", "Company", "Role", "Package", "PlacementDate"],
          body f = .undefined) ∧
      ((body "StudentID").truthy = true → ∀ q,
        Effect.query q ∈ (putPlacement Number env id body).effects →
          ⟨"StudentID", .Int, body "StudentID"⟩ ∈ q.inputs)) ∧
    ((∀ q, Effect.query q ∈ (createInternship env (some body)).effects →
        ⟨"StudentID", .Int, body "studentId"⟩ ∈ q.inputs) ∧
      ((createInternship env (some body)).response.status = 400 ↔
        ∃ f ∈ ["studentId", "company", "role", "startDate", "endDate"],
          (body f).truthy = false)) ∧
    ((∀ q, Effect.query q ∈ (createPlacement env (some body)).effects →
        ⟨"StudentID", .Int, body "studentId"⟩ ∈ q.inputs) ∧
      ((createPlacement env (some body)).response.status = 400 ↔
        ∃ f ∈ ["studentId", "company", "package", "offerDate"],
          (body f).truthy = false)) :=
  ⟨bindsOnlyId_getStudent Number env id, bindsOnlyId_deleteStudent Number env id,
   bindsOnlyId_deleteInternship Number env id, bindsOnlyId_deletePlacement Number env id,
   put_id_students Number env id body, put_id_internships Number env id body,
   put_id_placements Number env id body, create_id_internship env body,
   create_id_placement env body⟩

/-- C10 as the code has it, at `PUT /api/internships/abc` with StudentID "xyz" where
`Number` gives NaN: the statement binds NaN as InternshipID and the text "xyz" as
StudentID, both integer-typed. -/
theorem identifiers_bound_unchecked_witness :
    (putInternship (fun _ => .nan) (readyStore 1) "abc"
        (bodyOf [("StudentID", .str "xyz")])).effects =
      [.getPool, .query ⟨"UPDATE Internships SET StudentID=@StudentID WHERE InternshipID=@InternshipID",
        [⟨"InternshipID", .Int, .num .nan⟩, ⟨"StudentID", .Int, .str "xyz"⟩]⟩] ∧
    ⟨"StudentID", .Int, .str "xyz"⟩ ∈
      (⟨"UPDATE Internships SET StudentID=@StudentID WHERE InternshipID=@InternshipID",
        [⟨"InternshipID", .Int, .num .nan⟩, ⟨"StudentID", .Int, .str "xyz"⟩]⟩ : Query).inputs :=
  ⟨by decide,
   (identifiers_bound_unchecked (fun _ => .nan) (readyStore 1) "abc"
      (bodyOf [("StudentID", .str "xyz")])).2.2.2.2.2.1.2.2 (by decide) _ (by decide)⟩

/-! ### The no-field guard -/

/-- A body with none of the five fields of its kind is answered 400 "No fields to update"
by each update handler, with no call to the data layer. -/
theorem put_no_fields (Number : String → JsNum) (env : Store) (id : String) (body : Body) :
    ((∀ f ∈ ["RollNumber", "FirstName", "LastName", "Email", "ResumeUrl"],
        body f = .undefined) →
      putStudent Number env id body = ⟨⟨400, .text "No fields to update"⟩, []⟩) ∧
    ((∀ f ∈ ["StudentID", "Company", "Role", "StartDate", "EndDate"],
        body f = .undefined) →
      putInternship Number env id body = ⟨⟨400, .error "No fields to update"⟩, []⟩) ∧
    ((∀ f ∈ ["StudentID", "Company", "Role", "Package", "PlacementDate"],
        body f = .undefined) →
      putPlacement Number env id body = ⟨⟨400, .error "No fields to update"⟩, []⟩) := by
  refine ⟨?_, ?_, ?_⟩
  · intro h
    have hg := (all_undefined_iff body _ _ _ _ _).2 h
    unfold putStudent
    simp only [hg, if_true]
  · intro h
    have hg := (all_undefined_iff body _ _ _ _ _).2 h
    unfold putInternship
    simp only [hg, if_true]
  · intro h
    have hg := (all_undefined_iff body _ _ _ _ _).2 h
    unfold putPlacement
    simp only [hg, if_true]

/-- The scenario `PUT /api/internships/5` with the empty body. -/
theorem putInternship_empty_body (Number : String → JsNum) (env : Store) :
    putInternship Number env "5" (bodyOf []) = ⟨⟨400, .error "No fields to update"⟩, []⟩ :=
  (put_no_fields Number env "5" (bodyOf [])).2.1 (fun _ _ => rfl)

/-- For students an empty SET list is never sent: whatever the body, every statement the
update handler issues has a non-empty list of defined fields behind it. -/
theorem putStudent_never_empty_set (Number : String → JsNum) (env : Store) (id : String)
    (body : Body) (q : Query) (hq : Effect.query q ∈ (putStudent Number env id body).effects) :
    definedFields studentFields body ≠ [] ∧
    q = updateOver "UPDATE Students SET " " WHERE StudentID=@StudentID"
      ⟨"StudentID", .Int, .num (Number id)⟩ (definedFields studentFields body) body := by
  by_cases h : ∃ f ∈ studentFields, body f.1 ≠ .undefined
  · have hs := putStudent_effects Number env id body h
    obtain ⟨f, hf, hne⟩ := h
    refine ⟨List.ne_nil_of_mem ((mem_definedFields studentFields body f).2 ⟨hf, hne⟩), ?_⟩
    rw [hs] at hq
    cases hp : env.pool with
    | error msg => simp [hp] at hq
    | ok u => simpa [hp] using hq
  · have hall : ∀ f ∈ ["RollNumber", "FirstName", "LastName", "Email", "ResumeUrl"],
        body f = .undefined := by
      intro f hf
      by_contra hne
      apply h
      simp only [List.mem_cons, List.mem_singleton, List.not_mem_nil, or_false] at hf
      rcases hf with rfl | rfl | rfl | rfl | rfl
      · exact ⟨("RollNumber", .VarChar), by simp [studentFields], hne⟩
      · exact ⟨("FirstName", .NVarChar), by simp [studentFields], hne⟩
      · exact ⟨("LastName", .NVarChar), by simp [studentFields], hne⟩
      · exact ⟨("Email", .NVarChar), by simp [studentFields], hne⟩
      · exact ⟨("ResumeUrl", .NVarChar), by simp [studentFields], hne⟩
    rw [(put_no_fields Number env id body).1 hall] at hq
    simp at hq

/-- What the internship and placement update handlers build once past the guard with a
ready pool: the statement over the fields whose value is truthy. -/
theorem put_truthy_statement (Number : String → JsNum) (run : Query → Except String QueryResult)
    (id : String) (body : Body) :
    ((∃ f ∈ ["StudentID", "Company", "Role", "StartDate", "EndDate"], body f ≠ .undefined) →
      (putInternship Number ⟨.ok (), run⟩ id body).effects =
        [.getPool, .query (updateOver "UPDATE Internships SET "
          " WHERE InternshipID=@InternshipID" ⟨"InternshipID", .Int, .num (Number id)⟩
          (truthyFields internshipFields body) body)]) ∧
    ((∃ f ∈ ["StudentID", "Company", "Role", "Package", "PlacementDate"],
        body f ≠ .undefined) →
      (putPlacement Number ⟨.ok (), run⟩ id body).effects =
        [.getPool, .query (updateOver "UPDATE Placements SET "
          " WHERE PlacementID=@PlacementID" ⟨"PlacementID", .Int, .num (Number id)⟩
          (truthyFields placementFields body) body)]) := by
  constructor
  · intro h
    have hg : [body "StudentID", body "Company", body "Role", body "StartDate",
        body "EndDate"].all (fun v => v == .undefined) = false := by
      rw [Bool.eq_false_iff]
      intro hall
      obtain ⟨f, hf, hne⟩ := h
      exact hne ((all_undefined_iff body _ _ _ _ _).1 hall f hf)
    unfold putInternship
    simp only [hg, Bool.false_eq_true, if_false, internshipUpdate_spec, updateOver]
    split
    · rfl
    · split <;> rfl
  · intro h
    have hg : [body "StudentID", body "Company", body "Role", body "Package",
        body "PlacementDate"].all (fun v => v == .undefined) = false := by
      rw [Bool.eq_false_iff]
      intro hall
      obtain ⟨f, hf, hne⟩ := h
      exact hne ((all_undefined_iff body _ _ _ _ _).1 hall f hf)
    unfold putPlacement
    simp only [hg, Bool.false_eq_true, if_false, internshipUpdate_spec, placementUpdate_spec,
      updateOver]
    split
    · rfl
    · split <;> rfl

end InternshipApi
